import Mathlib

/-!
Verification of the device queue & timeout coordination protocol of the
textile-device-monitor backend.  The definitions below are a shallow embedding of
`backend/app/crud/queue.py`, `backend/app/crud/devices.py`, `backend/app/crud/history.py`,
`backend/app/tasks/queue_timeout.py`, `backend/app/api/queue.py`,
`backend/app/api/devices.py` and `backend/app/websocket/manager.py`.
Timestamps are modelled as natural numbers (seconds); the database is modelled as lists
of rows, a transaction rollback as returning the unchanged database.
-/

namespace TextileMonitor

/-- `TaskStatus` from `backend/app/models.py`. -/
inductive TaskStatus where
  | waiting
  | completed
deriving DecidableEq

/-- `DeviceStatus` from `backend/app/models.py`. -/
inductive DeviceStatus where
  | offline
  | idle
  | busy
  | maintenance
  | error
deriving DecidableEq

/-- A row of the `queue_records` table (`QueueRecord` in `backend/app/models.py`).
`submitted_at` carries the `server_default=func.now()` value of the inserting call. -/
structure QueueRecord where
  id : Nat
  inspector_name : String
  device_id : Nat
  position : Nat
  submitted_at : Nat
  completed_at : Option Nat
  status : TaskStatus
  version : Nat
  created_by_id : Option String
deriving DecidableEq

/-- A row of the `queue_change_logs` table (`QueueChangeLog` in `backend/app/models.py`).
The server-defaulted `change_time` column plays no role in the claims and is omitted. -/
structure QueueChangeLog where
  queue_id : Nat
  old_position : Option Nat
  new_position : Option Nat
  changed_by : String
  changed_by_id : Option String
  change_type : Option String
  remark : Option String
deriving DecidableEq

/-- The queue-related tables of the database together with the next fresh primary key
(`queue_records.id` is an autoincrement primary key). -/
structure QueueDb where
  records : List QueueRecord
  logs : List QueueChangeLog
  next_id : Nat
deriving DecidableEq

/-- The filter `device_id == ... AND status == TaskStatus.WAITING` used by every queue
query in `crud/queue.py`. -/
def isWaitingOf (device_id : Nat) (r : QueueRecord) : Bool :=
  decide (r.device_id = device_id ∧ r.status = TaskStatus.waiting)

/-- The ordering `ORDER BY position, submitted_at, id` used by the queue queries
(`crud/queue.py`). -/
def queueLE (a b : QueueRecord) : Bool :=
  decide (a.position < b.position ∨ (a.position = b.position ∧
    (a.submitted_at < b.submitted_at ∨ (a.submitted_at = b.submitted_at ∧ a.id ≤ b.id))))

/-- Insert a record into a list sorted by `queueLE`. -/
def insertByKey (r : QueueRecord) : List QueueRecord → List QueueRecord
  | [] => [r]
  | x :: xs => if queueLE r x then r :: x :: xs else x :: insertByKey r xs

/-- Sort records by `(position, submitted_at, id)` (insertion sort; the ordering key is
total, and on the unique primary keys of a database it has no ties, so any sort
implements the SQL `ORDER BY` deterministically). -/
def sortQueue : List QueueRecord → List QueueRecord
  | [] => []
  | x :: xs => insertByKey x (sortQueue xs)

/-- `get_queue_by_device` (`crud/queue.py`): the WAITING records of a device ordered by
`(position, submitted_at, id)`. -/
def get_queue_by_device (db : QueueDb) (device_id : Nat) : List QueueRecord :=
  sortQueue (db.records.filter (isWaitingOf device_id))

/-- The WAITING records of a device, in table order. -/
def waitingRecords (db : QueueDb) (device_id : Nat) : List QueueRecord :=
  db.records.filter (isWaitingOf device_id)

/-- The positions held by the WAITING records of a device. -/
def waitingPositions (db : QueueDb) (device_id : Nat) : List Nat :=
  (waitingRecords db device_id).map (·.position)

/-- `db.query(func.max(QueueRecord.position)).filter(...).scalar() or 0` in `join_queue`
(`crud/queue.py`): the maximal WAITING position of the device, `0` if it has none. -/
def maxWaitingPosition (db : QueueDb) (device_id : Nat) : Nat :=
  (db.records.filter (isWaitingOf device_id)).foldr (fun r m => max r.position m) 0

/-- The request schema `QueueCreate`.  `inspector_name` and `device_id` are declared in
`app/schemas.py`; the `copies` field is read by `join_queue` in `crud/queue.py`
(`queue.copies if queue.copies else 1`) but is missing from the shipped `schemas.py`,
so it is modelled here as the crud and the spec ("copies≥1", absent treated as 1)
require. -/
structure QueueCreate where
  inspector_name : String
  device_id : Nat
  copies : Nat
deriving DecidableEq

/-- `join_queue` (`crud/queue.py`): append `copies` consecutive records after the current
maximal WAITING position of the device.  `now` stands for the `submitted_at` server
default of the inserting transaction; fresh primary keys come from `next_id`.
Returns the new database and the created records. -/
def join_queue (db : QueueDb) (q : QueueCreate) (now : Nat) :
    QueueDb × List QueueRecord :=
  let copies := if q.copies = 0 then 1 else q.copies
  let max_position := maxWaitingPosition db q.device_id
  let created := (List.range copies).map (fun i =>
    { id := db.next_id + i
      inspector_name := q.inspector_name
      device_id := q.device_id
      position := max_position + 1 + i
      submitted_at := now
      completed_at := none
      status := TaskStatus.waiting
      version := 1
      created_by_id := none : QueueRecord })
  ({ db with records := db.records ++ created, next_id := db.next_id + copies }, created)

/-- `get_queue_record` (`crud/queue.py`): fetch a queue record by primary key. -/
def get_queue_record (db : QueueDb) (queue_id : Nat) : Option QueueRecord :=
  db.records.find? (fun r => r.id == queue_id)

/-- The request schema `PositionChange`.  `new_position` and `changed_by` are declared in
`app/schemas.py`; the `version` field is read by `update_queue_position` in
`crud/queue.py` but is missing from the shipped `schemas.py`, so it is modelled here as
the crud and the spec (`expected_version`) require. -/
structure PositionChange where
  new_position : Int
  changed_by : String
  version : Nat
deriving DecidableEq

/-- Outcome of `update_queue_position` (`crud/queue.py`): `None` for an unknown id, the
`ValueError("Concurrency conflict ...")`, the `ValueError` raised by `list.index` when
the fetched record is not in the device's WAITING list, or success.  Failing paths roll
the transaction back, so they carry no database. -/
inductive ReorderResult where
  | notFound
  | conflict
  | notInList
  | ok (db : QueueDb) (record : QueueRecord)
deriving DecidableEq

/-- `for i, record in enumerate(queue_list, start=k): record.position = i` — assign
consecutive positions in list order (`update_queue_position` and
`normalize_queue_positions` in `crud/queue.py`). -/
def renumberFrom (k : Nat) : List QueueRecord → List QueueRecord
  | [] => []
  | r :: rs => { r with position := k } :: renumberFrom (k + 1) rs

/-- `update_queue_position` (`crud/queue.py`): optimistic-concurrency check, clamp of the
requested position to `[1, N]`, list pop/insert, renumbering of all WAITING records of
the device, version increment and change-log append. -/
def update_queue_position (db : QueueDb) (queue_id : Nat) (change : PositionChange) :
    ReorderResult :=
  match get_queue_record db queue_id with
  | none => ReorderResult.notFound
  | some queue =>
    if queue.version ≠ change.version then ReorderResult.conflict
    else
      let queue_list := get_queue_by_device db queue.device_id
      if queue_list.isEmpty then ReorderResult.ok db queue
      else
        let total := queue_list.length
        let new_position := (max 1 (min change.new_position (total : Int))).toNat
        if new_position = queue.position then ReorderResult.ok db queue
        else
          match queue_list.findIdx? (fun r => r.id == queue.id) with
          | none => ReorderResult.notInList
          | some current_index =>
            let target_index := new_position - 1
            if current_index = target_index then ReorderResult.ok db queue
            else
              let popped := queue_list.eraseIdx current_index
              let inserted := popped.insertIdx target_index queue
              let renumbered := renumberFrom 1 inserted
              let bumped := renumbered.map (fun r =>
                if r.id == queue.id then { r with version := r.version + 1 } else r)
              let log : QueueChangeLog :=
                { queue_id := queue_id
                  old_position := some queue.position
                  new_position := some new_position
                  changed_by := queue.inspector_name
                  changed_by_id := none
                  change_type := none
                  remark := none }
              ReorderResult.ok
                { db with
                  records :=
                    db.records.filter (fun r => !isWaitingOf queue.device_id r) ++ bumped
                  logs := db.logs ++ [log] }
                { queue with position := new_position, version := queue.version + 1 }

/-- `normalize_queue_positions` (`crud/queue.py`): re-sort the live WAITING set of the
device by `(position, submitted_at, id)` and assign `1..N` in that order.  Rows of other
devices and non-WAITING rows are untouched. -/
def normalize_queue_positions (db : QueueDb) (device_id : Nat) : QueueDb :=
  { db with records :=
      db.records.filter (fun r => !isWaitingOf device_id r) ++
        renumberFrom 1 (get_queue_by_device db device_id) }

/-- `first_record.status = TaskStatus.COMPLETED; first_record.completed_at = now` in
`complete_first_in_queue` (`crud/queue.py`). -/
def completedCopy (r : QueueRecord) (now : Nat) : QueueRecord :=
  { r with status := TaskStatus.completed, completed_at := some now }

/-- `complete_first_in_queue` (`crud/queue.py`): the position-1 WAITING record
transitions to COMPLETED, stamped with `completed_at = now`, and the remainder is
renumbered.  Returns `none` for an empty queue. -/
def complete_first_in_queue (db : QueueDb) (device_id : Nat) (now : Nat) :
    QueueDb × Option QueueRecord :=
  match get_queue_by_device db device_id with
  | [] => (db, none)
  | first_record :: _ =>
    let completed := completedCopy first_record now
    let records' :=
      db.records.map (fun r => if r.id == first_record.id then completed else r)
    let db' := { db with records := records' }
    (normalize_queue_positions db' device_id, some completed)

/-- `delete_queue` (`crud/queue.py`): delete the record and its change logs, then
renumber the device's WAITING records.  Returns `false` for an unknown id. -/
def delete_queue (db : QueueDb) (queue_id : Nat) : QueueDb × Bool :=
  match get_queue_record db queue_id with
  | none => (db, false)
  | some queue =>
    let db' := { db with
      records := db.records.eraseP (fun r => r.id == queue_id)
      logs := db.logs.filter (fun l => !(l.queue_id == queue_id)) }
    (normalize_queue_positions db' queue.device_id, true)

/-- `get_queue_count` (`crud/queue.py`): number of WAITING records of the device. -/
def get_queue_count (db : QueueDb) (device_id : Nat) : Nat :=
  (db.records.filter (isWaitingOf device_id)).length

/-- The queue-store operations of the claims: `join_queue`, `update_queue_position`,
`complete_first_in_queue` and `delete_queue` of `crud/queue.py`. -/
inductive QueueOp where
  | join (q : QueueCreate) (now : Nat)
  | reorder (queue_id : Nat) (change : PositionChange)
  | complete_first (device_id : Nat) (now : Nat)
  | leave (queue_id : Nat)
deriving DecidableEq

/-- Apply one queue-store operation; a failing operation rolls its transaction back and
leaves the database unchanged. -/
def applyQueueOp (db : QueueDb) (op : QueueOp) : QueueDb :=
  match op with
  | QueueOp.join q now => (join_queue db q now).1
  | QueueOp.reorder queue_id change =>
    match update_queue_position db queue_id change with
    | ReorderResult.ok db' _ => db'
    | _ => db
  | QueueOp.complete_first device_id now => (complete_first_in_queue db device_id now).1
  | QueueOp.leave queue_id => (delete_queue db queue_id).1

/-- The empty database every claim-C1 operation sequence starts from. -/
def emptyQueueDb : QueueDb := { records := [], logs := [], next_id := 1 }

/-- Run a sequence of queue-store operations from the empty database. -/
def runQueueOps (ops : List QueueOp) : QueueDb :=
  ops.foldl applyQueueOp emptyQueueDb

/-- The database invariant the queue store maintains: primary keys are unique and below
the next fresh key, and each device's WAITING positions are exactly `{1, ..., N}`. -/
def QueueInvariant (db : QueueDb) : Prop :=
  (db.records.map (·.id)).Nodup ∧
  (∀ r ∈ db.records, r.id < db.next_id) ∧
  ∀ d, (waitingPositions db d).Perm
    (List.range' 1 (waitingPositions db d).length)

/-- The `metrics["olympus"]` sub-dictionary fields touched by
`filter_output_paths_in_metrics` (`crud/devices.py`). -/
structure OlympusMetrics where
  output_path : Option String
  output_path_candidates : List String
deriving DecidableEq

/-- The metrics dictionary fields the backend reads: `device_type` (capture-device
detection in `update_device_status`) and the `olympus` sub-dictionary (path
sanitization). -/
structure Metrics where
  device_type : Option String
  olympus : Option OlympusMetrics
deriving DecidableEq

/-- Containment of one character sequence in another; models Python's `in` on the
normalized path strings of `is_temp_output_path`. -/
def charsContain (needle : List Char) : List Char → Bool
  | [] => needle.isEmpty
  | c :: t => needle.isPrefixOf (c :: t) || charsContain needle t

/-- `path.replace("/", "\\").lower()` in `is_temp_output_path` (`crud/devices.py`),
as a character list. -/
def lowerBackslash (p : String) : List Char :=
  p.toList.map (fun c => Char.toLower (if c = '/' then '\\' else c))

/-- `is_temp_output_path` (`crud/devices.py`): the device-specific heuristic deciding
whether a reported path points at a known temporary/scratch location. -/
def is_temp_output_path (path : String) : Bool :=
  if path = "" then true
  else
    let normalized := lowerBackslash path
    let olympus_temp_patterns : List String :=
      ["programdata\\olympus\\lext-ols50-sw\\microscopeapp\\temp\\image",
       "microscopeapp\\temp\\image",
       "temp\\image"]
    olympus_temp_patterns.any (fun pat => charsContain pat.toList normalized) ||
      (("c:\\programdata\\".toList.isPrefixOf normalized) &&
        charsContain "temp".toList normalized) ||
      ("c:\\windows\\temp\\".toList.isPrefixOf normalized)

/-- `filter_output_paths_in_metrics` (`crud/devices.py`): null out a temporary
`olympus.output_path` and drop temporary entries from `olympus.output_path_candidates`
before the metrics are persisted. -/
def filter_output_paths_in_metrics (metrics : Option Metrics) : Option Metrics :=
  match metrics with
  | none => none
  | some m =>
    match m.olympus with
    | none => some m
    | some oly =>
      let output_path :=
        match oly.output_path with
        | some p => if p ≠ "" ∧ is_temp_output_path p then none else some p
        | none => none
      let candidates := oly.output_path_candidates.filter
        (fun p => !(p == "") && !is_temp_output_path p)
      some { m with olympus := some { oly with
        output_path := output_path, output_path_candidates := candidates } }

/-- A row of the `devices` table (`Device` in `backend/app/models.py`), restricted to
the columns the claims touch. -/
structure Device where
  id : Nat
  device_code : String
  name : String
  status : DeviceStatus
  last_heartbeat : Option Nat
  task_id : Option String
  task_name : Option String
  task_progress : Option Nat
  task_started_at : Option Nat
  task_elapsed_seconds : Option Int
  metrics : Option Metrics
  client_base_url : Option String
  queue_timeout_active_id : Option Nat
  queue_timeout_started_at : Option Nat
  queue_timeout_deadline_at : Option Nat
  queue_timeout_reminded_at : Option Nat
  queue_timeout_extended_count : Nat
deriving DecidableEq

/-- `settings.QUEUE_IDLE_REMIND_SECONDS` (`app/config.py`), default 60. -/
def QUEUE_IDLE_REMIND_SECONDS : Nat := 60

/-- `settings.QUEUE_IDLE_TIMEOUT_SECONDS` (`app/config.py`), default 300. -/
def QUEUE_IDLE_TIMEOUT_SECONDS : Nat := 300

/-- `settings.QUEUE_IDLE_EXTEND_SECONDS` (`app/config.py`), default 300. -/
def QUEUE_IDLE_EXTEND_SECONDS : Nat := 300

/-- WebSocket events; one constructor per broadcast site the claims mention, with the
payload fields the claims talk about. -/
inductive Event where
  | queue_update_position_change (device_id queue_id : Nat) (old_position : Nat)
      (new_position : Int) (changed_by : String) (queue_count : Nat)
  | queue_update_action (device_id : Nat) (action : String) (queue_count : Nat)
  | queue_update_complete (device_id queue_id : Nat) (completed_by : String)
      (queue_count : Nat)
  | queue_timeout_update (device_id : Nat)
      (active_id started_at deadline_at reminded_at : Option Nat) (extended_count : Nat)
  | queue_timeout_reminder (device_id active_queue_id : Nat) (active_name : String)
      (next_queue_id : Nat) (next_name : String)
  | queue_timeout_shift (device_id timed_out_queue_id : Nat) (timed_out_name : String)
      (new_active_queue_id : Nat) (new_active_name : String)
  | device_status_update (device_id : Nat) (device_code : String) (status : DeviceStatus)
      (task_id task_name : Option String) (task_progress : Option Nat)
      (metrics : Option Metrics) (queue_count : Nat)
deriving DecidableEq

/-- All five timeout columns of a device are null/zero. -/
def timeoutStateEmpty (device : Device) : Prop :=
  device.queue_timeout_active_id = none ∧ device.queue_timeout_started_at = none ∧
    device.queue_timeout_deadline_at = none ∧ device.queue_timeout_reminded_at = none ∧
    device.queue_timeout_extended_count = 0

instance (device : Device) : Decidable (timeoutStateEmpty device) := by
  unfold timeoutStateEmpty
  infer_instance

/-- `reset_timeout_state` (`tasks/queue_timeout.py`): null/zero all five timeout
columns. -/
def reset_timeout_state (device : Device) : Device :=
  { device with
    queue_timeout_active_id := none
    queue_timeout_started_at := none
    queue_timeout_deadline_at := none
    queue_timeout_reminded_at := none
    queue_timeout_extended_count := 0 }

/-- `broadcast_timeout_update` (`tasks/queue_timeout.py`): the `queue_timeout_update`
event carrying the device's current timeout state. -/
def timeout_update_event (device : Device) : Event :=
  Event.queue_timeout_update device.id device.queue_timeout_active_id
    device.queue_timeout_started_at device.queue_timeout_deadline_at
    device.queue_timeout_reminded_at device.queue_timeout_extended_count

/-- Exchange of the positions of the two head records: a record carrying the first id
takes the second record's position and vice versa, all other records are untouched. -/
def swapStep (r1 r2 r : QueueRecord) : QueueRecord :=
  if r.id == r1.id then { r with position := r2.position }
  else if r.id == r2.id then { r with position := r1.position }
  else r

/-- Modelled from the spec: `swap_first_two_in_queue` is invoked by
`check_queue_timeouts` (`tasks/queue_timeout.py`) but its definition is not among the
sources; per the spec it "exchanges positions 1 and 2" of the device's WAITING queue
"and logs a `timeout_shift` entry". -/
def swap_first_two_in_queue (db : QueueDb) (device_id : Nat) (changed_by : String)
    (changed_by_id : Option String) : QueueDb :=
  match get_queue_by_device db device_id with
  | r1 :: r2 :: _ =>
    let log : QueueChangeLog :=
      { queue_id := r1.id
        old_position := some r1.position
        new_position := some r2.position
        changed_by := changed_by
        changed_by_id := changed_by_id
        change_type := some "timeout_shift"
        remark := none }
    { db with
      records := db.records.map (swapStep r1 r2)
      logs := db.logs ++ [log] }
  | _ => db

/-- Result of one per-device pass of the timeout monitor. -/
structure TickResult where
  device : Device
  db : QueueDb
  events : List Event
deriving DecidableEq

/-- One per-device pass of `check_queue_timeouts` (`tasks/queue_timeout.py`):
eligibility check and clearing, (re)arming, reminder, and expiry with swap and
immediate re-arm.  `normalize_datetime` is the identity on the numeric timestamps of
this model. -/
def check_device_timeout (db : QueueDb) (device : Device) (now : Nat) : TickResult :=
  let queue := get_queue_by_device db device.id
  if device.status ≠ DeviceStatus.idle ∨ queue.length < 2 then
    if device.queue_timeout_active_id ≠ none ∨
        device.queue_timeout_deadline_at ≠ none then
      let device' := reset_timeout_state device
      ⟨device', db, [timeout_update_event device']⟩
    else ⟨device, db, []⟩
  else
    match queue with
    | active_record :: next_record :: _ =>
      if device.queue_timeout_active_id ≠ some active_record.id ∨
          device.queue_timeout_started_at = none ∨
          device.queue_timeout_deadline_at = none then
        let device' := { device with
          queue_timeout_active_id := some active_record.id
          queue_timeout_started_at := some now
          queue_timeout_deadline_at := some (now + QUEUE_IDLE_TIMEOUT_SECONDS)
          queue_timeout_reminded_at := none
          queue_timeout_extended_count := 0 }
        ⟨device', db, [timeout_update_event device']⟩
      else
        match device.queue_timeout_started_at, device.queue_timeout_deadline_at with
        | some started_at, some deadline_at =>
          let reminded := device.queue_timeout_reminded_at = none ∧ now < deadline_at ∧
            QUEUE_IDLE_REMIND_SECONDS ≤ now - started_at
          let device₁ :=
            if reminded then { device with queue_timeout_reminded_at := some now }
            else device
          let events₁ : List Event :=
            if reminded then
              [Event.queue_timeout_reminder device.id active_record.id
                active_record.inspector_name next_record.id next_record.inspector_name]
            else []
          if deadline_at ≤ now then
            let db₁ := swap_first_two_in_queue db device.id "系统" none
            let queue_count := get_queue_count db₁ device.id
            let device₂ := { device₁ with
              queue_timeout_active_id := some next_record.id
              queue_timeout_started_at := some now
              queue_timeout_deadline_at := some (now + QUEUE_IDLE_TIMEOUT_SECONDS)
              queue_timeout_reminded_at := none
              queue_timeout_extended_count := 0 }
            ⟨device₂, db₁,
              events₁ ++
                [Event.queue_update_action device.id "timeout_shift" queue_count,
                 Event.queue_timeout_shift device.id active_record.id
                   active_record.inspector_name next_record.id
                   next_record.inspector_name,
                 timeout_update_event device₂]⟩
          else ⟨device₁, db, events₁⟩
        | _, _ =>
          let device' := { device with
            queue_timeout_started_at := some now
            queue_timeout_deadline_at := some (now + QUEUE_IDLE_TIMEOUT_SECONDS)
            queue_timeout_reminded_at := none
            queue_timeout_extended_count := 0 }
          ⟨device', db, [timeout_update_event device']⟩
    | _ => ⟨device, db, []⟩

/-- Modelled from the spec: the request body `QueueTimeoutExtend` is imported by
`api/queue.py` but missing from the shipped `schemas.py`; its fields are the ones the
endpoint reads (`changed_by`, `changed_by_id`). -/
structure QueueTimeoutExtend where
  changed_by : Option String
  changed_by_id : Option String
deriving DecidableEq

/-- HTTP outcome of a state-changing endpoint: status code, resulting device row,
resulting database and broadcast events.  An error response models the raised
`HTTPException`, whose uncommitted session changes are discarded. -/
structure ExtendOutcome where
  status_code : Nat
  device : Device
  db : QueueDb
  events : List Event
deriving DecidableEq

/-- `extend_queue_timeout` (`api/queue.py`, `POST /queue/{device_id}/timeout/extend`):
manual extension of the running countdown by `QUEUE_IDLE_EXTEND_SECONDS`.  The device
row is given directly; the 404 branch for an unknown device id is not modelled. -/
def extend_queue_timeout (db : QueueDb) (device : Device) (payload : QueueTimeoutExtend)
    (now : Nat) : ExtendOutcome :=
  if device.status ≠ DeviceStatus.idle then ⟨400, device, db, []⟩
  else
    let queue := get_queue_by_device db device.id
    if queue.length < 2 then ⟨400, device, db, []⟩
    else
      match queue with
      | active_record :: _ =>
        let device₁ :=
          if device.queue_timeout_active_id ≠ some active_record.id then
            { device with
              queue_timeout_active_id := some active_record.id
              queue_timeout_started_at :=
                if device.queue_timeout_started_at = none then some now
                else device.queue_timeout_started_at }
          else device
        match device₁.queue_timeout_deadline_at with
        | none => ⟨409, device, db, []⟩
        | some deadline =>
          if deadline ≤ now then ⟨409, device, db, []⟩
          else
            let device₂ := { device₁ with
              queue_timeout_deadline_at := some (deadline + QUEUE_IDLE_EXTEND_SECONDS)
              queue_timeout_extended_count := device₁.queue_timeout_extended_count + 1 }
            let changed_by :=
              match payload.changed_by with
              | some s => if s = "" then "系统" else s.trim
              | none => "系统"
            let log : QueueChangeLog :=
              { queue_id := active_record.id
                old_position := some active_record.position
                new_position := some active_record.position
                changed_by := changed_by
                changed_by_id := payload.changed_by_id
                change_type := some "timeout_extend"
                remark := some ("设备超时被延长5分钟（操作人ID: " ++
                  payload.changed_by_id.getD "-" ++ "）") }
            ⟨200, device₂, { db with logs := db.logs ++ [log] },
              [timeout_update_event device₂]⟩
      | [] => ⟨400, device, db, []⟩

/-- HTTP outcome of `PUT /queue/{queue_id}/position`. -/
structure ReorderOutcome where
  status_code : Nat
  db : QueueDb
  events : List Event
deriving DecidableEq

/-- `change_queue_position` (`api/queue.py`): 404 for an unknown record, 409 for the
concurrency-conflict `ValueError`, 400 for any other `ValueError`, otherwise the
updated database plus a `queue_update` broadcast. -/
def change_queue_position (db : QueueDb) (queue_id : Nat)
    (position_change : PositionChange) : ReorderOutcome :=
  match get_queue_record db queue_id with
  | none => ⟨404, db, []⟩
  | some existing_record =>
    match update_queue_position db queue_id position_change with
    | ReorderResult.notFound => ⟨404, db, []⟩
    | ReorderResult.conflict => ⟨409, db, []⟩
    | ReorderResult.notInList => ⟨400, db, []⟩
    | ReorderResult.ok db' queue_record =>
      ⟨200, db',
        [Event.queue_update_position_change queue_record.device_id queue_id
          existing_record.position position_change.new_position
          queue_record.inspector_name (get_queue_count db' queue_record.device_id)]⟩

/-- Python truthiness of an optional string (`None` and `""` are falsy). -/
def optStrTruthy (o : Option String) : Prop :=
  o ≠ none ∧ o ≠ some ""

instance (o : Option String) : Decidable (optStrTruthy o) := by
  unfold optStrTruthy
  infer_instance

/-- `update_device_heartbeat` (`crud/devices.py`). -/
def update_device_heartbeat (device : Device) (now : Nat) : Device :=
  { device with last_heartbeat := some now }

/-- `update_device_status` (`crud/devices.py`): heartbeat, new-task detection,
task-field updates (suppressed for an offline report carrying no task fields),
metrics sanitization and elapsed-time bookkeeping. -/
def update_device_status (device : Device) (status : DeviceStatus)
    (task_id task_name : Option String) (task_progress : Option Nat)
    (metrics : Option Metrics) (client_base_url : Option String) (now : Nat) : Device :=
  let preserve_task_fields :=
    status = DeviceStatus.offline ∧ task_id = none ∧ task_name = none ∧
      task_progress = none
  let device₀ :=
    if status = DeviceStatus.busy ∧ device.task_started_at = none then
      { device with task_started_at := some now, task_elapsed_seconds := some 0 }
    else device
  let is_laser_confocal : Bool :=
    match metrics with
    | some m => decide (m.device_type = some "laser_confocal")
    | none => false
  let progress_regressed : Bool :=
    match task_progress, device.task_progress with
    | some tp, some dp => decide (tp < dp)
    | _, _ => false
  let below_100 : Bool :=
    match task_progress with
    | some tp => decide (tp < 100)
    | none => false
  let new_task : Bool :=
    if optStrTruthy task_id ∧ optStrTruthy device.task_id ∧ task_id ≠ device.task_id then
      decide (device.task_progress = none) || decide (task_progress = none) ||
        decide (device.task_progress = some 100 ∧ status = DeviceStatus.busy) ||
        progress_regressed
    else if device.task_progress = some 100 ∧ below_100 = true then true
    else if device.status ≠ DeviceStatus.busy ∧ status = DeviceStatus.busy ∧
        is_laser_confocal = false then true
    else false
  let device₁ :=
    if new_task then
      { device₀ with task_started_at := some now, task_elapsed_seconds := some 0 }
    else device₀
  let previous_progress := device.task_progress
  let device₂ := { device₁ with
    status := status
    task_id := if preserve_task_fields then device₁.task_id else task_id
    task_name := if preserve_task_fields then device₁.task_name else task_name
    task_progress := if preserve_task_fields then device₁.task_progress else task_progress
    metrics := filter_output_paths_in_metrics metrics
    client_base_url :=
      match client_base_url with
      | some u => if u.trim ≠ "" then some u else device₁.client_base_url
      | none => device₁.client_base_url }
  let next_progress :=
    match task_progress with
    | some tp => some tp
    | none => previous_progress
  let device₃ :=
    match device₂.task_started_at with
    | none => device₂
    | some started =>
      if next_progress = some 100 then
        if previous_progress ≠ some 100 ∨ device₂.task_elapsed_seconds = none then
          { device₂ with task_elapsed_seconds := some ((now : Int) - (started : Int)) }
        else device₂
      else
        if is_laser_confocal = true ∧ device₂.task_elapsed_seconds ≠ none ∧
            previous_progress = some 100 then device₂
        else
          { device₂ with task_elapsed_seconds := some ((now : Int) - (started : Int)) }
  { device₃ with last_heartbeat := some now }

/-- The request body `StatusReport` (`app/schemas.py`). -/
structure StatusReport where
  status : DeviceStatus
  task_id : Option String
  task_name : Option String
  task_progress : Option Nat
  metrics : Option Metrics
deriving DecidableEq

/-- A row of the `device_status_history` table (`DeviceStatusHistory` in
`backend/app/models.py`), restricted to the columns `create_status_history` fills. -/
structure DeviceStatusHistoryRow where
  device_id : Nat
  status : DeviceStatus
  task_id : Option String
  task_name : Option String
  task_progress : Option Nat
  task_duration_seconds : Int
  device_metrics : Option Metrics
deriving DecidableEq

/-- `create_status_history` (`crud/history.py`): append one immutable history row. -/
def create_status_history (history : List DeviceStatusHistoryRow) (device_id : Nat)
    (status : DeviceStatus) (task_id task_name : Option String)
    (task_progress : Option Nat) (device_metrics : Option Metrics)
    (task_duration_seconds : Int) :
    List DeviceStatusHistoryRow × DeviceStatusHistoryRow :=
  let row : DeviceStatusHistoryRow :=
    { device_id := device_id
      status := status
      task_id := task_id
      task_name := task_name
      task_progress := task_progress
      task_duration_seconds := task_duration_seconds
      device_metrics := device_metrics }
  (history ++ [row], row)

/-- The `device_status_update` broadcast of `report_device_status` (`api/devices.py`):
it carries the report's own status/task fields and metrics. -/
def device_status_update_event (device_after : Device) (report : StatusReport)
    (queue_count : Nat) : Event :=
  Event.device_status_update device_after.id device_after.device_code report.status
    report.task_id report.task_name report.task_progress report.metrics queue_count

/-- Outcome of `POST /devices/{device_code}/status`. -/
structure ReportOutcome where
  device : Device
  db : QueueDb
  history : List DeviceStatusHistoryRow
  events : List Event
  queue_count : Nat
deriving DecidableEq

/-- `report_device_status` (`api/devices.py`): heartbeat, status update, and — exactly
when the reported progress is 100 while the previously stored progress was not — one
history row and a `complete_first_in_queue` call, followed by the broadcasts.  The
device row is given directly; the 404 branch for an unknown device code is not
modelled. -/
def report_device_status (device : Device) (db : QueueDb)
    (history : List DeviceStatusHistoryRow) (report : StatusReport) (now : Nat) :
    ReportOutcome :=
  let previous_progress := device.task_progress
  let device₁ := update_device_heartbeat device now
  let device₂ := update_device_status device₁ report.status report.task_id
    report.task_name report.task_progress report.metrics none now
  if report.task_progress = some 100 ∧ previous_progress ≠ some 100 then
    let task_duration_seconds : Int :=
      match device₂.task_elapsed_seconds with
      | some e => e
      | none => 0
    let history' := (create_status_history history device.id report.status
      report.task_id report.task_name report.task_progress report.metrics
      task_duration_seconds).1
    let completed := complete_first_in_queue db device.id now
    let queue_count := get_queue_count completed.1 device.id
    let complete_events : List Event :=
      match completed.2 with
      | some cr =>
        [Event.queue_update_complete device.id cr.id cr.inspector_name queue_count]
      | none => []
    ⟨device₂, completed.1, history',
      complete_events ++ [device_status_update_event device₂ report queue_count],
      queue_count⟩
  else
    let queue_count := get_queue_count db device.id
    ⟨device₂, db, history,
      [device_status_update_event device₂ report queue_count], queue_count⟩

/-- One loop iteration of `ConnectionManager.broadcast` (`websocket/manager.py`):
deliver to each connection in order; a raised exception (`Except.error`) is turned into
a log line and the loop continues.  Returns the connections that received the payload
and the error log, in iteration order. -/
def broadcastLoop (send : Nat → Except String Unit) :
    List Nat → List Nat × List String
  | [] => ([], [])
  | c :: rest =>
    match send c with
    | Except.ok _ =>
      let out := broadcastLoop send rest
      (c :: out.1, out.2)
    | Except.error e =>
      let out := broadcastLoop send rest
      (out.1, ("Error sending message: " ++ e) :: out.2)

/-- `ConnectionManager.broadcast` (`websocket/manager.py`): the whole call in the
exception monad.  `send c message` abstracts `await connection.send_json(payload)` for
the connection `c`; an `Except.error` result of the call itself would model an
exception propagating out of `broadcast`. -/
def broadcast (message : Event) (connections : List Nat)
    (send : Nat → Event → Except String Unit) :
    Except String (List Nat × List String) :=
  Except.ok (broadcastLoop (fun c => send c message) connections)

/-- Whether an individual delivery succeeds. -/
def sendOk (send : Nat → Except String Unit) (c : Nat) : Bool :=
  match send c with
  | Except.ok _ => true
  | Except.error _ => false

/-- The log line `print(f"Error sending message: {e}")` of a failed delivery. -/
def sendErrLog (send : Nat → Except String Unit) (c : Nat) : String :=
  match send c with
  | Except.ok _ => ""
  | Except.error e => "Error sending message: " ++ e

/-! Concrete instances used to evaluate the theorems below on explicit inputs. -/

/-- A single WAITING record, as `join_queue` creates it. -/
def recA : QueueRecord :=
  { id := 1, inspector_name := "A", device_id := 1, position := 1, submitted_at := 0,
    completed_at := none, status := TaskStatus.waiting, version := 1,
    created_by_id := none }

/-- Second WAITING record of device 1. -/
def recB : QueueRecord :=
  { id := 2, inspector_name := "B", device_id := 1, position := 2, submitted_at := 1,
    completed_at := none, status := TaskStatus.waiting, version := 1,
    created_by_id := none }

/-- Third WAITING record of device 1. -/
def recC : QueueRecord :=
  { id := 3, inspector_name := "C", device_id := 1, position := 3, submitted_at := 2,
    completed_at := none, status := TaskStatus.waiting, version := 1,
    created_by_id := none }

/-- Queue table with one waiting inspector on device 1. -/
def dbOne : QueueDb := { records := [recA], logs := [], next_id := 2 }

/-- Queue table with two waiting inspectors on device 1. -/
def dbTwo : QueueDb := { records := [recA, recB], logs := [], next_id := 3 }

/-- Queue table with three waiting inspectors on device 1 (the spec's A, B, C). -/
def dbThree : QueueDb := { records := [recA, recB, recC], logs := [], next_id := 4 }

/-- An idle device whose countdown is armed on `recA` with deadline 300. -/
def devArmed : Device :=
  { id := 1, device_code := "1号", name := "一号设备", status := DeviceStatus.idle,
    last_heartbeat := none, task_id := some "t0", task_name := some "布样0",
    task_progress := some 60, task_started_at := some 0, task_elapsed_seconds := none,
    metrics := none, client_base_url := none, queue_timeout_active_id := some 1,
    queue_timeout_started_at := some 0, queue_timeout_deadline_at := some 300,
    queue_timeout_reminded_at := none, queue_timeout_extended_count := 0 }

/-- A temporary scratch path reported by an Olympus device. -/
def tempPath : String := "C:\\ProgramData\\OLYMPUS\\LEXT-OLS50-SW\\MicroscopeApp\\Temp\\Image\\a.png"

/-- Metrics carrying the temporary path. -/
def tempMetrics : Metrics :=
  { device_type := some "laser_confocal",
    olympus := some { output_path := some tempPath, output_path_candidates := [] } }

/-- A status report carrying the temporary path (no completion transition). -/
def tempReport : StatusReport :=
  ⟨DeviceStatus.busy, some "t1", some "布样1", some 50, some tempMetrics⟩

/-- A status report arriving at 100% progress. -/
def completionReport : StatusReport :=
  ⟨DeviceStatus.busy, some "t1", some "布样1", some 100, none⟩

end TextileMonitor

namespace TextileMonitor

/-! Helper lemmas. -/

theorem renumberFrom_length (k : Nat) (l : List QueueRecord) :
    (renumberFrom k l).length = l.length := by
  induction l generalizing k with
  | nil => rfl
  | cons r rs ih => simp [renumberFrom, ih]

theorem renumberFrom_map_position (k : Nat) (l : List QueueRecord) :
    (renumberFrom k l).map (·.position) = List.range' k l.length := by
  induction l generalizing k with
  | nil => rfl
  | cons r rs ih => simp [renumberFrom, List.range'_succ, ih]

theorem renumberFrom_map_id (k : Nat) (l : List QueueRecord) :
    (renumberFrom k l).map (·.id) = l.map (·.id) := by
  induction l generalizing k with
  | nil => rfl
  | cons r rs ih => simp [renumberFrom, ih]

theorem mem_renumberFrom {r' : QueueRecord} {k : Nat} {l : List QueueRecord}
    (h : r' ∈ renumberFrom k l) :
    ∃ r ∈ l, r'.id = r.id ∧ r'.device_id = r.device_id ∧ r'.status = r.status := by
  induction l generalizing k with
  | nil => simp [renumberFrom] at h
  | cons r rs ih =>
    simp only [renumberFrom, List.mem_cons] at h
    rcases h with h | h
    · exact ⟨r, List.mem_cons_self r rs, by simp [h]⟩
    · obtain ⟨x, hx, hfields⟩ := ih h
      exact ⟨x, List.mem_cons_of_mem r hx, hfields⟩

theorem filter_not_filter_self (p : QueueRecord → Bool) (l : List QueueRecord) :
    (l.filter (fun r => !p r)).filter p = [] := by
  simp [List.filter_filter]

theorem insertByKey_perm (r : QueueRecord) (l : List QueueRecord) :
    (insertByKey r l).Perm (r :: l) := by
  induction l with
  | nil => exact List.Perm.refl _
  | cons x xs ih =>
    unfold insertByKey
    split
    · exact List.Perm.refl _
    · exact (List.Perm.cons x ih).trans (List.Perm.swap r x xs)

theorem sortQueue_perm (l : List QueueRecord) : (sortQueue l).Perm l := by
  induction l with
  | nil => exact List.Perm.refl _
  | cons x xs ih =>
    exact (insertByKey_perm x (sortQueue xs)).trans (List.Perm.cons x ih)

theorem mem_sortQueue {a : QueueRecord} {l : List QueueRecord} :
    a ∈ sortQueue l ↔ a ∈ l :=
  (sortQueue_perm l).mem_iff

theorem length_sortQueue (l : List QueueRecord) : (sortQueue l).length = l.length :=
  (sortQueue_perm l).length_eq

/-- C3: reorder with an `expected_version` that does not match the stored `version`
fails with the concurrency-conflict error, surfaced by the API as HTTP 409, and leaves
the record, the queue and the change logs unchanged (the error response carries the
original database). -/
theorem reorder_stale_version_conflict (db : QueueDb) (queue_id : Nat)
    (change : PositionChange) (queue : QueueRecord)
    (hfind : get_queue_record db queue_id = some queue)
    (hver : queue.version ≠ change.version) :
    update_queue_position db queue_id change = ReorderResult.conflict ∧
    change_queue_position db queue_id change = ⟨409, db, []⟩ := by
  have h1 : update_queue_position db queue_id change = ReorderResult.conflict := by
    unfold update_queue_position
    rw [hfind]
    simp [hver]
  refine ⟨h1, ?_⟩
  unfold change_queue_position
  rw [hfind, h1]

/-- Witness for C3 at a one-record queue and a stale version. -/
theorem reorder_stale_version_conflict_witness :
    (get_queue_record dbOne 1 = some recA ∧
      recA.version ≠ (PositionChange.mk 1 "B" 2).version) ∧
    (update_queue_position dbOne 1 (PositionChange.mk 1 "B" 2) =
        ReorderResult.conflict ∧
      change_queue_position dbOne 1 (PositionChange.mk 1 "B" 2) = ⟨409, dbOne, []⟩) :=
  ⟨⟨by decide, by decide⟩,
    reorder_stale_version_conflict dbOne 1 (PositionChange.mk 1 "B" 2) recA
      (by decide) (by decide)⟩

/-- C9: `broadcast` never raises: for every event and every list of connected viewer
sessions it returns normally (`Except.ok`), each failed delivery contributes exactly one
log line, and every viewer whose own delivery succeeds receives the event, regardless of
failures earlier in the iteration. -/
theorem broadcast_swallows_failures (message : Event) (connections : List Nat)
    (send : Nat → Event → Except String Unit) :
    broadcast message connections send =
      Except.ok
        (connections.filter (sendOk (fun c => send c message)),
         (connections.filter (fun c => !sendOk (fun c => send c message) c)).map
           (sendErrLog (fun c => send c message))) := by
  unfold broadcast
  congr 1
  induction connections with
  | nil => rfl
  | cons c rest ih =>
    simp only [broadcastLoop, List.filter_cons]
    cases h : send c message with
    | ok u => simp [broadcastLoop, sendOk, h, ih]
    | error e => simp [broadcastLoop, sendOk, sendErrLog, h, ih]

/-- C10: an `offline` status report carrying no task fields leaves the stored
`task_id`, `task_name` and `task_progress` unchanged, while `status` and
`last_heartbeat` are still updated. -/
theorem offline_report_preserves_task (device : Device) (metrics : Option Metrics)
    (client_base_url : Option String) (now : Nat) :
    (update_device_status device DeviceStatus.offline none none none metrics
        client_base_url now).task_id = device.task_id ∧
    (update_device_status device DeviceStatus.offline none none none metrics
        client_base_url now).task_name = device.task_name ∧
    (update_device_status device DeviceStatus.offline none none none metrics
        client_base_url now).task_progress = device.task_progress ∧
    (update_device_status device DeviceStatus.offline none none none metrics
        client_base_url now).status = DeviceStatus.offline ∧
    (update_device_status device DeviceStatus.offline none none none metrics
        client_base_url now).last_heartbeat = some now := by
  unfold update_device_status
  simp only [optStrTruthy, ne_eq, not_true_eq_false, false_and, and_false, and_true,
    true_and, reduceCtorEq, if_false, Bool.false_eq_true, if_true,
    and_self, ite_false, ite_true, not_false_eq_true]
  split <;> simp_all [apply_ite]

/-- C6: under the timeout-monitor step, an ineligible device (not idle, or fewer than 2
WAITING records — in particular a queue of length 1) ends the tick with no
`deadline_at` and no active id; if its timeout state was non-empty it is cleared to
all-null/zero and the cleared state is broadcast, and if it was already empty nothing
changes and nothing is broadcast.  The side hypothesis `hwf` is the invariant, true of
every state the monitor or the extend endpoint produces, that the auxiliary timing
fields are only ever set together with an active id or a deadline. -/
theorem timeout_cleared_when_ineligible (db : QueueDb) (device : Device) (now : Nat)
    (hinelig : device.status ≠ DeviceStatus.idle ∨
      (get_queue_by_device db device.id).length < 2)
    (hwf : device.queue_timeout_started_at ≠ none ∨
        device.queue_timeout_reminded_at ≠ none ∨
        device.queue_timeout_extended_count ≠ 0 →
      device.queue_timeout_active_id ≠ none ∨
        device.queue_timeout_deadline_at ≠ none) :
    (check_device_timeout db device now).device.queue_timeout_deadline_at = none ∧
    (check_device_timeout db device now).device.queue_timeout_active_id = none ∧
    (check_device_timeout db device now).db = db ∧
    (¬ timeoutStateEmpty device →
      (check_device_timeout db device now).device = reset_timeout_state device ∧
      (check_device_timeout db device now).events =
        [timeout_update_event (reset_timeout_state device)]) ∧
    (timeoutStateEmpty device →
      (check_device_timeout db device now).device = device ∧
      (check_device_timeout db device now).events = []) := by
  have hstep : check_device_timeout db device now =
      if device.queue_timeout_active_id ≠ none ∨
          device.queue_timeout_deadline_at ≠ none then
        ⟨reset_timeout_state device, db,
          [timeout_update_event (reset_timeout_state device)]⟩
      else ⟨device, db, []⟩ := by
    unfold check_device_timeout
    rw [if_pos hinelig]
  by_cases hg : device.queue_timeout_active_id ≠ none ∨
      device.queue_timeout_deadline_at ≠ none
  · rw [hstep, if_pos hg]
    refine ⟨rfl, rfl, rfl, fun _ => ⟨rfl, rfl⟩, fun hempty => ?_⟩
    obtain ⟨ha, -, hd, -, -⟩ := hempty
    rcases hg with h | h
    · exact absurd ha h
    · exact absurd hd h
  · rw [hstep, if_neg hg]
    push_neg at hg
    obtain ⟨ha, hd⟩ := hg
    have hempty : timeoutStateEmpty device := by
      have h3 : ¬(device.queue_timeout_started_at ≠ none ∨
          device.queue_timeout_reminded_at ≠ none ∨
          device.queue_timeout_extended_count ≠ 0) := by
        intro h
        rcases hwf h with h' | h'
        · exact h' ha
        · exact h' hd
      push_neg at h3
      exact ⟨ha, h3.1, hd, h3.2.1, h3.2.2⟩
    exact ⟨hd, ha, rfl, fun hne => absurd hempty hne, fun _ => ⟨rfl, rfl⟩⟩

/-- Witness for C6: an idle device with an armed countdown but a single-entry queue is
cleared and the cleared state broadcast. -/
theorem timeout_cleared_when_ineligible_witness :
    ((devArmed.status ≠ DeviceStatus.idle ∨
        (get_queue_by_device dbOne devArmed.id).length < 2) ∧
      (devArmed.queue_timeout_started_at ≠ none ∨
          devArmed.queue_timeout_reminded_at ≠ none ∨
          devArmed.queue_timeout_extended_count ≠ 0 →
        devArmed.queue_timeout_active_id ≠ none ∨
          devArmed.queue_timeout_deadline_at ≠ none)) ∧
    ((check_device_timeout dbOne devArmed 100).device.queue_timeout_deadline_at = none ∧
      (check_device_timeout dbOne devArmed 100).device.queue_timeout_active_id = none ∧
      (check_device_timeout dbOne devArmed 100).db = dbOne ∧
      (¬ timeoutStateEmpty devArmed →
        (check_device_timeout dbOne devArmed 100).device =
          reset_timeout_state devArmed ∧
        (check_device_timeout dbOne devArmed 100).events =
          [timeout_update_event (reset_timeout_state devArmed)]) ∧
      (timeoutStateEmpty devArmed →
        (check_device_timeout dbOne devArmed 100).device = devArmed ∧
        (check_device_timeout dbOne devArmed 100).events = [])) :=
  ⟨⟨by decide, by decide⟩,
    timeout_cleared_when_ineligible dbOne devArmed 100 (by decide) (by decide)⟩

theorem isWaitingOf_swapStep (d : Nat) (r1 r2 r : QueueRecord) :
    isWaitingOf d (swapStep r1 r2 r) = isWaitingOf d r := by
  by_cases h1 : r.id == r1.id <;> by_cases h2 : r.id == r2.id <;>
    simp [h1, h2, isWaitingOf, swapStep]

theorem id_swapStep (r1 r2 r : QueueRecord) : (swapStep r1 r2 r).id = r.id := by
  by_cases h1 : r.id == r1.id <;> by_cases h2 : r.id == r2.id <;>
    simp [h1, h2, swapStep]

/-- C2: when an idle device with at least two waiters and an armed countdown
(`active_id` tracking the position-1 record, timing fields set) is ticked at
`now ≥ deadline_at`, the WAITING count is unchanged, the position-1 and position-2
records exchange their positions (the timed-out inspector is demoted, not removed),
exactly one `timeout_shift` change-log row is appended, `queue_update` and
`queue_timeout_shift` events (and the re-armed timeout state) are broadcast, and the
timer is re-armed for the new position-1 record with `extended_count` reset to 0. -/
theorem timeout_expiry_swaps (db : QueueDb) (device : Device) (now t0 tD : Nat)
    (r1 r2 : QueueRecord) (rest : List QueueRecord)
    (hidle : device.status = DeviceStatus.idle)
    (hqueue : get_queue_by_device db device.id = r1 :: r2 :: rest)
    (hactive : device.queue_timeout_active_id = some r1.id)
    (hstarted : device.queue_timeout_started_at = some t0)
    (hdeadline : device.queue_timeout_deadline_at = some tD)
    (hnow : tD ≤ now)
    (hpos1 : r1.position = 1) (hpos2 : r2.position = 2)
    (hne : r1.id ≠ r2.id) :
    get_queue_count (check_device_timeout db device now).db device.id =
        get_queue_count db device.id ∧
    ((check_device_timeout db device now).db.records.find?
        (fun r => r.id == r1.id)).map (·.position) = some 2 ∧
    ((check_device_timeout db device now).db.records.find?
        (fun r => r.id == r2.id)).map (·.position) = some 1 ∧
    (check_device_timeout db device now).db.logs =
      db.logs ++ [⟨r1.id, some 1, some 2, "系统", none, some "timeout_shift", none⟩] ∧
    Event.queue_update_action device.id "timeout_shift"
        (get_queue_count (check_device_timeout db device now).db device.id) ∈
      (check_device_timeout db device now).events ∧
    Event.queue_timeout_shift device.id r1.id r1.inspector_name r2.id
        r2.inspector_name ∈ (check_device_timeout db device now).events ∧
    timeout_update_event (check_device_timeout db device now).device ∈
      (check_device_timeout db device now).events ∧
    (check_device_timeout db device now).device.queue_timeout_active_id = some r2.id ∧
    (check_device_timeout db device now).device.queue_timeout_started_at = some now ∧
    (check_device_timeout db device now).device.queue_timeout_deadline_at =
      some (now + QUEUE_IDLE_TIMEOUT_SECONDS) ∧
    (check_device_timeout db device now).device.queue_timeout_reminded_at = none ∧
    (check_device_timeout db device now).device.queue_timeout_extended_count = 0 := by
  have h1 : ¬(device.status ≠ DeviceStatus.idle ∨
      (get_queue_by_device db device.id).length < 2) := by
    rw [hqueue, hidle]
    simp
  have h2 : ¬(device.queue_timeout_active_id ≠ some r1.id ∨
      (some t0 : Option Nat) = none ∨ (some tD : Option Nat) = none) := by
    rw [hactive]
    simp
  have h3 : ¬(device.queue_timeout_reminded_at = none ∧ now < tD ∧
      QUEUE_IDLE_REMIND_SECONDS ≤ now - t0) := by
    rintro ⟨-, hlt, -⟩
    omega
  have hout : check_device_timeout db device now =
      ⟨{ device with
          queue_timeout_active_id := some r2.id
          queue_timeout_started_at := some now
          queue_timeout_deadline_at := some (now + QUEUE_IDLE_TIMEOUT_SECONDS)
          queue_timeout_reminded_at := none
          queue_timeout_extended_count := 0 },
        swap_first_two_in_queue db device.id "系统" none,
        [Event.queue_update_action device.id "timeout_shift"
            (get_queue_count (swap_first_two_in_queue db device.id "系统" none)
              device.id),
          Event.queue_timeout_shift device.id r1.id r1.inspector_name r2.id
            r2.inspector_name,
          Event.queue_timeout_update device.id (some r2.id) (some now)
            (some (now + QUEUE_IDLE_TIMEOUT_SECONDS)) none 0]⟩ := by
    unfold check_device_timeout
    rw [hqueue, if_neg (hqueue ▸ h1)]
    simp only [hstarted, hdeadline]
    rw [if_neg h2]
    simp only [if_neg h3, if_pos hnow, timeout_update_event, List.nil_append]
  have hswap : swap_first_two_in_queue db device.id "系统" none =
      { db with
        records := db.records.map (swapStep r1 r2)
        logs := db.logs ++ [⟨r1.id, some r1.position, some r2.position, "系统",
          none, some "timeout_shift", none⟩] } := by
    unfold swap_first_two_in_queue
    rw [hqueue]
  have hr1mem : r1 ∈ db.records := by
    have h : r1 ∈ get_queue_by_device db device.id := by
      rw [hqueue]; exact List.mem_cons_self _ _
    exact List.mem_of_mem_filter (mem_sortQueue.mp h)
  have hr2mem : r2 ∈ db.records := by
    have h : r2 ∈ get_queue_by_device db device.id := by
      rw [hqueue]
      exact List.mem_cons_of_mem _ (List.mem_cons_self _ _)
    exact List.mem_of_mem_filter (mem_sortQueue.mp h)
  have hcount : get_queue_count (swap_first_two_in_queue db device.id "系统" none)
      device.id = get_queue_count db device.id := by
    rw [hswap]
    unfold get_queue_count
    rw [List.filter_map, List.length_map]
    congr 1
    apply List.filter_congr
    intro r _
    exact isWaitingOf_swapStep device.id r1 r2 r
  have hpf : ∀ i : Nat, ((fun r : QueueRecord => r.id == i) ∘ swapStep r1 r2) =
      (fun r : QueueRecord => r.id == i) := by
    intro i
    funext r
    simp [Function.comp, id_swapStep]
  have hfind1 : ((swap_first_two_in_queue db device.id "系统" none).records.find?
      (fun r => r.id == r1.id)).map (·.position) = some 2 := by
    rw [hswap]
    show ((db.records.map (swapStep r1 r2)).find?
      (fun r => r.id == r1.id)).map (·.position) = some 2
    rw [List.find?_map, hpf r1.id]
    obtain ⟨r, hr, hrid⟩ : ∃ r, db.records.find? (fun r => r.id == r1.id) = some r ∧
        r.id = r1.id := by
      cases hf : db.records.find? (fun r => r.id == r1.id) with
      | none => exact absurd (List.find?_eq_none.mp hf r1 hr1mem) (by simp)
      | some r => exact ⟨r, rfl, by simpa using List.find?_some hf⟩
    rw [hr]
    simp [swapStep, hrid, hpos2]
  have hfind2 : ((swap_first_two_in_queue db device.id "系统" none).records.find?
      (fun r => r.id == r2.id)).map (·.position) = some 1 := by
    rw [hswap]
    show ((db.records.map (swapStep r1 r2)).find?
      (fun r => r.id == r2.id)).map (·.position) = some 1
    rw [List.find?_map, hpf r2.id]
    obtain ⟨r, hr, hrid⟩ : ∃ r, db.records.find? (fun r => r.id == r2.id) = some r ∧
        r.id = r2.id := by
      cases hf : db.records.find? (fun r => r.id == r2.id) with
      | none => exact absurd (List.find?_eq_none.mp hf r2 hr2mem) (by simp)
      | some r => exact ⟨r, rfl, by simpa using List.find?_some hf⟩
    rw [hr]
    have hne2 : ¬(r2.id = r1.id) := fun h => hne h.symm
    simp [swapStep, hrid, hne2, hpos1]
  rw [hout]
  refine ⟨hcount, hfind1, hfind2, ?_, ?_, ?_, ?_, rfl, rfl, rfl, rfl, rfl⟩
  · rw [hswap, hpos1, hpos2]
  · simp [hcount]
  · simp
  · simp [timeout_update_event]

/-- Witness for C2: the spec's scenario — device idle, queue `[A, B]`, armed at `t = 0`
with a 300 s deadline, ticked at `t = 301`. -/
theorem timeout_expiry_swaps_witness :
    (devArmed.status = DeviceStatus.idle ∧
      get_queue_by_device dbTwo devArmed.id = recA :: recB :: [] ∧
      devArmed.queue_timeout_active_id = some recA.id ∧
      devArmed.queue_timeout_started_at = some 0 ∧
      devArmed.queue_timeout_deadline_at = some 300 ∧
      (300 : Nat) ≤ 301 ∧ recA.position = 1 ∧ recB.position = 2 ∧ recA.id ≠ recB.id) ∧
    (get_queue_count (check_device_timeout dbTwo devArmed 301).db devArmed.id =
        get_queue_count dbTwo devArmed.id ∧
      ((check_device_timeout dbTwo devArmed 301).db.records.find?
          (fun r => r.id == recA.id)).map (·.position) = some 2 ∧
      ((check_device_timeout dbTwo devArmed 301).db.records.find?
          (fun r => r.id == recB.id)).map (·.position) = some 1 ∧
      (check_device_timeout dbTwo devArmed 301).db.logs =
        dbTwo.logs ++
          [⟨recA.id, some 1, some 2, "系统", none, some "timeout_shift", none⟩] ∧
      Event.queue_update_action devArmed.id "timeout_shift"
          (get_queue_count (check_device_timeout dbTwo devArmed 301).db devArmed.id) ∈
        (check_device_timeout dbTwo devArmed 301).events ∧
      Event.queue_timeout_shift devArmed.id recA.id recA.inspector_name recB.id
          recB.inspector_name ∈ (check_device_timeout dbTwo devArmed 301).events ∧
      timeout_update_event (check_device_timeout dbTwo devArmed 301).device ∈
        (check_device_timeout dbTwo devArmed 301).events ∧
      (check_device_timeout dbTwo devArmed 301).device.queue_timeout_active_id =
        some recB.id ∧
      (check_device_timeout dbTwo devArmed 301).device.queue_timeout_started_at =
        some 301 ∧
      (check_device_timeout dbTwo devArmed 301).device.queue_timeout_deadline_at =
        some (301 + QUEUE_IDLE_TIMEOUT_SECONDS) ∧
      (check_device_timeout dbTwo devArmed 301).device.queue_timeout_reminded_at =
        none ∧
      (check_device_timeout dbTwo devArmed 301).device.queue_timeout_extended_count =
        0) :=
  ⟨⟨by decide, by decide, by decide, by decide, by decide, by decide, by decide,
      by decide, by decide⟩,
    timeout_expiry_swaps dbTwo devArmed 301 0 300 recA recB [] (by decide) (by decide)
      (by decide) (by decide) (by decide) (by decide) (by decide) (by decide)
      (by decide)⟩


/-- C7: a manual timeout-extend succeeds (HTTP 200) exactly when the device is idle, at
least 2 inspectors are WAITING, a deadline is set and `now` is strictly before it; then
`deadline_at` grows by exactly `QUEUE_IDLE_EXTEND_SECONDS` (300 s), `extended_count`
grows by 1 and one `timeout_extend` change-log row carrying the requesting actor id is
appended.  Otherwise it fails — 400 when the device is not idle or the queue is too
short, 409 when no deadline is set or the deadline has passed — leaving device,
database (hence the deadline) unchanged. -/
theorem extend_timeout_iff (db : QueueDb) (device : Device)
    (payload : QueueTimeoutExtend) (now : Nat) :
    ((extend_queue_timeout db device payload now).status_code = 200 ↔
      device.status = DeviceStatus.idle ∧
        2 ≤ (get_queue_by_device db device.id).length ∧
        ∃ dl, device.queue_timeout_deadline_at = some dl ∧ now < dl) ∧
    (∀ dl r0 q, device.status = DeviceStatus.idle →
      device.queue_timeout_deadline_at = some dl → now < dl →
      get_queue_by_device db device.id = r0 :: q → 1 ≤ q.length →
      (extend_queue_timeout db device payload now).device.queue_timeout_deadline_at =
          some (dl + QUEUE_IDLE_EXTEND_SECONDS) ∧
        (extend_queue_timeout db device payload now).device.queue_timeout_extended_count =
          device.queue_timeout_extended_count + 1 ∧
        ∃ cb, (extend_queue_timeout db device payload now).db.logs =
          db.logs ++ [⟨r0.id, some r0.position, some r0.position, cb,
            payload.changed_by_id, some "timeout_extend",
            some ("设备超时被延长5分钟（操作人ID: " ++
              payload.changed_by_id.getD "-" ++ "）")⟩]) ∧
    (device.status ≠ DeviceStatus.idle →
      extend_queue_timeout db device payload now = ⟨400, device, db, []⟩) ∧
    (device.status = DeviceStatus.idle →
      (get_queue_by_device db device.id).length < 2 →
      extend_queue_timeout db device payload now = ⟨400, device, db, []⟩) ∧
    (device.status = DeviceStatus.idle →
      2 ≤ (get_queue_by_device db device.id).length →
      device.queue_timeout_deadline_at = none →
      extend_queue_timeout db device payload now = ⟨409, device, db, []⟩) ∧
    (∀ dl, device.status = DeviceStatus.idle →
      2 ≤ (get_queue_by_device db device.id).length →
      device.queue_timeout_deadline_at = some dl → dl ≤ now →
      extend_queue_timeout db device payload now = ⟨409, device, db, []⟩) := by
  have hnotidle : device.status ≠ DeviceStatus.idle →
      extend_queue_timeout db device payload now = ⟨400, device, db, []⟩ := by
    intro h
    unfold extend_queue_timeout
    rw [if_pos h]
  have hshort : device.status = DeviceStatus.idle →
      (get_queue_by_device db device.id).length < 2 →
      extend_queue_timeout db device payload now = ⟨400, device, db, []⟩ := by
    intro hidle hlen
    unfold extend_queue_timeout
    rw [if_neg (by simp [hidle]), if_pos hlen]
  have hnodl : device.status = DeviceStatus.idle →
      2 ≤ (get_queue_by_device db device.id).length →
      device.queue_timeout_deadline_at = none →
      extend_queue_timeout db device payload now = ⟨409, device, db, []⟩ := by
    intro hidle hlen hdl
    unfold extend_queue_timeout
    rw [if_neg (by simp [hidle]), if_neg (by omega)]
    rcases hqe : get_queue_by_device db device.id with _ | ⟨r0, q⟩
    · rw [hqe] at hlen
      simp at hlen
    · dsimp only
      have hsc : (if device.queue_timeout_active_id ≠ some r0.id then
          { device with
            queue_timeout_active_id := some r0.id
            queue_timeout_started_at :=
              if device.queue_timeout_started_at = none then some now
              else device.queue_timeout_started_at }
          else device).queue_timeout_deadline_at = none := by
        split
        · exact hdl
        · exact hdl
      rw [hsc]
  have hexpired : ∀ dl, device.status = DeviceStatus.idle →
      2 ≤ (get_queue_by_device db device.id).length →
      device.queue_timeout_deadline_at = some dl → dl ≤ now →
      extend_queue_timeout db device payload now = ⟨409, device, db, []⟩ := by
    intro dl hidle hlen hdl hle
    unfold extend_queue_timeout
    rw [if_neg (by simp [hidle]), if_neg (by omega)]
    rcases hqe : get_queue_by_device db device.id with _ | ⟨r0, q⟩
    · rw [hqe] at hlen
      simp at hlen
    · dsimp only
      have hsc : (if device.queue_timeout_active_id ≠ some r0.id then
          { device with
            queue_timeout_active_id := some r0.id
            queue_timeout_started_at :=
              if device.queue_timeout_started_at = none then some now
              else device.queue_timeout_started_at }
          else device).queue_timeout_deadline_at = some dl := by
        split
        · exact hdl
        · exact hdl
      rw [hsc]
      dsimp only
      rw [if_pos hle]
  have hsuccess : ∀ dl, device.status = DeviceStatus.idle →
      2 ≤ (get_queue_by_device db device.id).length →
      device.queue_timeout_deadline_at = some dl → now < dl →
      (extend_queue_timeout db device payload now).status_code = 200 ∧
      (extend_queue_timeout db device payload now).device.queue_timeout_deadline_at =
        some (dl + QUEUE_IDLE_EXTEND_SECONDS) ∧
      (extend_queue_timeout db device payload
          now).device.queue_timeout_extended_count =
        device.queue_timeout_extended_count + 1 ∧
      (∀ r0 q, get_queue_by_device db device.id = r0 :: q →
        ∃ cb, (extend_queue_timeout db device payload now).db.logs =
          db.logs ++ [⟨r0.id, some r0.position, some r0.position, cb,
            payload.changed_by_id, some "timeout_extend",
            some ("设备超时被延长5分钟（操作人ID: " ++
              payload.changed_by_id.getD "-" ++ "）")⟩]) := by
    intro dl hidle hlen hdl hlt
    unfold extend_queue_timeout
    rw [if_neg (by simp [hidle]), if_neg (by omega)]
    rcases hqe : get_queue_by_device db device.id with _ | ⟨r0, q⟩
    · rw [hqe] at hlen
      simp at hlen
    · dsimp only
      have hsc : (if device.queue_timeout_active_id ≠ some r0.id then
          { device with
            queue_timeout_active_id := some r0.id
            queue_timeout_started_at :=
              if device.queue_timeout_started_at = none then some now
              else device.queue_timeout_started_at }
          else device).queue_timeout_deadline_at = some dl := by
        split
        · exact hdl
        · exact hdl
      rw [hsc]
      dsimp only
      rw [if_neg (by omega : ¬ dl ≤ now)]
      refine ⟨rfl, rfl, ?_, ?_⟩
      · show (if device.queue_timeout_active_id ≠ some r0.id then
            { device with
              queue_timeout_active_id := some r0.id
              queue_timeout_started_at :=
                if device.queue_timeout_started_at = none then some now
                else device.queue_timeout_started_at }
            else device).queue_timeout_extended_count + 1 =
          device.queue_timeout_extended_count + 1
        split
        · rfl
        · rfl
      · intro r0' q' hq'
        injection hq' with h1 h2
        subst h1
        exact ⟨_, rfl⟩
  refine ⟨⟨?_, ?_⟩, ?_, hnotidle, hshort, hnodl, hexpired⟩
  · intro h200
    by_cases hidle : device.status = DeviceStatus.idle
    · by_cases hlen : 2 ≤ (get_queue_by_device db device.id).length
      · cases hdlo : device.queue_timeout_deadline_at with
        | none =>
          rw [hnodl hidle hlen hdlo] at h200
          simp at h200
        | some dl =>
          by_cases hle : dl ≤ now
          · rw [hexpired dl hidle hlen hdlo hle] at h200
            simp at h200
          · exact ⟨hidle, hlen, dl, rfl, by omega⟩
      · rw [hshort hidle (by omega)] at h200
        simp at h200
    · rw [hnotidle hidle] at h200
      simp at h200
  · rintro ⟨hidle, hlen, dl, hdl, hlt⟩
    exact (hsuccess dl hidle hlen hdl hlt).1
  · intro dl r0 q hidle hdl hlt hq hq1
    have hlen : 2 ≤ (get_queue_by_device db device.id).length := by
      rw [hq]
      simp
      omega
    obtain ⟨-, hdl', hcnt, hlog⟩ := hsuccess dl hidle hlen hdl hlt
    exact ⟨hdl', hcnt, hlog r0 q hq⟩

theorem mem_get_queue_by_device {db : QueueDb} {d : Nat} {x : QueueRecord}
    (h : x ∈ get_queue_by_device db d) : x ∈ db.records ∧ isWaitingOf d x = true := by
  have h' := mem_sortQueue.mp h
  exact ⟨List.mem_of_mem_filter h', List.of_mem_filter h'⟩

theorem isWaitingOf_bump (d : Nat) (i : Nat) (r : QueueRecord) :
    isWaitingOf d (if r.id == i then { r with version := r.version + 1 } else r) =
      isWaitingOf d r := by
  split <;> rfl

theorem position_bump (i : Nat) (r : QueueRecord) :
    (if r.id == i then { r with version := r.version + 1 } else r).position =
      r.position := by
  split <;> rfl

theorem id_bump (i : Nat) (r : QueueRecord) :
    (if r.id == i then { r with version := r.version + 1 } else r).id = r.id := by
  split <;> rfl

/-- After a pop/insert/renumber/bump move of a WAITING record of device `d`, the moved
block is exactly the WAITING set of the new table and its positions are `1..N`. -/
theorem waitingRecords_after_move (db : QueueDb) (d : Nat) (queue : QueueRecord)
    (ci target : Nat) (hw : isWaitingOf d queue = true)
    (hci : ci < (get_queue_by_device db d).length)
    (htarget : target ≤ ((get_queue_by_device db d).eraseIdx ci).length) :
    (db.records.filter (fun r => !isWaitingOf d r) ++
        (renumberFrom 1 (((get_queue_by_device db d).eraseIdx ci).insertIdx target
          queue)).map
          (fun r => if r.id == queue.id then { r with version := r.version + 1 }
            else r)).filter (isWaitingOf d) =
      (renumberFrom 1 (((get_queue_by_device db d).eraseIdx ci).insertIdx target
        queue)).map
        (fun r => if r.id == queue.id then { r with version := r.version + 1 }
          else r) ∧
    ((renumberFrom 1 (((get_queue_by_device db d).eraseIdx ci).insertIdx target
        queue)).map
        (fun r => if r.id == queue.id then { r with version := r.version + 1 }
          else r)).map (·.position) =
      List.range' 1 (get_queue_by_device db d).length := by
  constructor
  · rw [List.filter_append, filter_not_filter_self, List.nil_append]
    rw [List.filter_eq_self]
    intro x hx
    obtain ⟨y, hy, rfl⟩ := List.mem_map.mp hx
    obtain ⟨z, hz, hid, hdev, hst⟩ := mem_renumberFrom hy
    have hzw : isWaitingOf d z = true := by
      rcases (List.mem_insertIdx htarget).mp hz with rfl | hz'
      · exact hw
      · exact (mem_get_queue_by_device (List.mem_of_mem_eraseIdx hz')).2
    have hyw : isWaitingOf d y = true := by
      unfold isWaitingOf at hzw ⊢
      rw [hdev, hst]
      exact hzw
    rw [isWaitingOf_bump]
    exact hyw
  · rw [List.map_map]
    have hcongr : ((fun r : QueueRecord => r.position) ∘
        (fun r => if r.id == queue.id then { r with version := r.version + 1 }
          else r)) = fun r : QueueRecord => r.position := by
      funext r
      exact position_bump queue.id r
    rw [hcongr, renumberFrom_map_position]
    have hlen : (((get_queue_by_device db d).eraseIdx ci).insertIdx target
        queue).length = (get_queue_by_device db d).length := by
      rw [List.length_insertIdx target _ htarget, List.length_eraseIdx, if_pos hci]
      omega
    rw [hlen]

/-- C4 counterexample: with the single WAITING record `A` at position 1, the requested
`new_position = 2` differs from the old position, yet the call is a no-op — the clamp
to `[1, 1]` hits the old position, so no version increment and no change-log row. -/
theorem reorder_clamp_counterexample :
    ((2 : Int) ≠ (recA.position : Int) ∧ recA.status = TaskStatus.waiting) ∧
    update_queue_position dbOne 1 (PositionChange.mk 2 "A" 1) =
      ReorderResult.ok dbOne recA ∧
    recA.version = 1 ∧ dbOne.logs = [] := by
  decide

/-- C4 as amended: for a WAITING record with a matching version, if the requested
`new_position` *after clamping to `[1, N]`* equals the old position the call is a no-op
returning the current record unchanged; if the clamped position differs (and the
record's index differs from the target index), the record is reinserted at the new
index, all WAITING records are renumbered `1..N`, the moved record's version grows by
exactly 1, and one change-log row with the old and new position is appended. -/
theorem reorder_clamped_success (db : QueueDb) (queue_id : Nat)
    (change : PositionChange) (queue : QueueRecord) (np : Nat)
    (hfind : get_queue_record db queue_id = some queue)
    (hver : queue.version = change.version)
    (hw : queue.status = TaskStatus.waiting)
    (hnp : np = (max 1 (min change.new_position
      ((get_queue_by_device db queue.device_id).length : Int))).toNat) :
    (np = queue.position →
      update_queue_position db queue_id change = ReorderResult.ok db queue) ∧
    (∀ ci, (get_queue_by_device db queue.device_id).findIdx?
        (fun r => r.id == queue.id) = some ci →
      np ≠ queue.position → ci ≠ np - 1 →
      ∃ db', update_queue_position db queue_id change =
          ReorderResult.ok db'
            { queue with position := np, version := queue.version + 1 } ∧
        db'.logs = db.logs ++ [⟨queue_id, some queue.position, some np,
          queue.inspector_name, none, none, none⟩] ∧
        waitingPositions db' queue.device_id =
          List.range' 1 (get_queue_by_device db queue.device_id).length ∧
        get_queue_count db' queue.device_id =
          (get_queue_by_device db queue.device_id).length) := by
  have hverne : ¬(queue.version ≠ change.version) := by simp [hver]
  constructor
  · intro heq
    simp only [update_queue_position]
    rw [hfind]
    dsimp only
    rw [if_neg hverne]
    by_cases hemp : (get_queue_by_device db queue.device_id).isEmpty = true
    · simp only [hemp, if_true]
    · simp only [Bool.not_eq_true] at hemp
      simp only [hemp, Bool.false_eq_true, if_false]
      rw [← hnp, if_pos heq]
  · intro ci hidx hne hci
    have hcilb : ci < (get_queue_by_device db queue.device_id).length :=
      (List.findIdx?_eq_some_iff_findIdx_eq.mp hidx).1
    have hlen1 : 1 ≤ (get_queue_by_device db queue.device_id).length := by omega
    have hnple : np ≤ (get_queue_by_device db queue.device_id).length := by
      rw [hnp]
      omega
    have htarget : np - 1 ≤
        ((get_queue_by_device db queue.device_id).eraseIdx ci).length := by
      rw [List.length_eraseIdx, if_pos hcilb]
      omega
    have hw' : isWaitingOf queue.device_id queue = true := by
      simp [isWaitingOf, hw]
    have hmove := waitingRecords_after_move db queue.device_id queue ci (np - 1)
      hw' hcilb htarget
    have hnonempty : (get_queue_by_device db queue.device_id).isEmpty = false := by
      cases hql : get_queue_by_device db queue.device_id with
      | nil => rw [hql] at hcilb; simp at hcilb
      | cons a l => rfl
    simp only [update_queue_position]
    rw [hfind]
    dsimp only
    rw [if_neg hverne]
    simp only [hnonempty, Bool.false_eq_true, if_false]
    rw [← hnp, if_neg hne, hidx]
    dsimp only
    rw [if_neg hci]
    refine ⟨_, rfl, rfl, ?_, ?_⟩
    · show ((db.records.filter (fun r => !isWaitingOf queue.device_id r) ++
          (renumberFrom 1 (((get_queue_by_device db queue.device_id).eraseIdx
            ci).insertIdx (np - 1) queue)).map
            (fun r => if r.id == queue.id then { r with version := r.version + 1 }
              else r)).filter (isWaitingOf queue.device_id)).map (·.position) =
        List.range' 1 (get_queue_by_device db queue.device_id).length
      rw [hmove.1, hmove.2]
    · show ((db.records.filter (fun r => !isWaitingOf queue.device_id r) ++
          (renumberFrom 1 (((get_queue_by_device db queue.device_id).eraseIdx
            ci).insertIdx (np - 1) queue)).map
            (fun r => if r.id == queue.id then { r with version := r.version + 1 }
              else r)).filter (isWaitingOf queue.device_id)).length =
        (get_queue_by_device db queue.device_id).length
      rw [hmove.1]
      have h2 := congrArg List.length hmove.2
      simpa using h2

/-- Witness for C4 (amended): the spec scenario — A, B, C at positions 1, 2, 3;
`reorder(C.id, new_position = 1, version = C.version)`. -/
theorem reorder_clamped_success_witness :
    (get_queue_record dbThree 3 = some recC ∧
      recC.version = (PositionChange.mk 1 "C" 1).version ∧
      recC.status = TaskStatus.waiting ∧
      (1 : Nat) = (max 1 (min (PositionChange.mk 1 "C" 1).new_position
        ((get_queue_by_device dbThree recC.device_id).length : Int))).toNat) ∧
    ((1 = recC.position →
      update_queue_position dbThree 3 (PositionChange.mk 1 "C" 1) =
        ReorderResult.ok dbThree recC) ∧
    (∀ ci, (get_queue_by_device dbThree recC.device_id).findIdx?
        (fun r => r.id == recC.id) = some ci →
      1 ≠ recC.position → ci ≠ 1 - 1 →
      ∃ db', update_queue_position dbThree 3 (PositionChange.mk 1 "C" 1) =
          ReorderResult.ok db'
            { recC with position := 1, version := recC.version + 1 } ∧
        db'.logs = dbThree.logs ++ [⟨3, some recC.position, some 1,
          recC.inspector_name, none, none, none⟩] ∧
        waitingPositions db' recC.device_id =
          List.range' 1 (get_queue_by_device dbThree recC.device_id).length ∧
        get_queue_count db' recC.device_id =
          (get_queue_by_device dbThree recC.device_id).length)) :=
  ⟨⟨by decide, by decide, by decide, by decide⟩,
    reorder_clamped_success dbThree 3 (PositionChange.mk 1 "C" 1) recC 1 (by decide)
      (by decide) (by decide) (by decide)⟩

theorem waitingRecords_normalize (db : QueueDb) (d : Nat) :
    waitingRecords (normalize_queue_positions db d) d =
      renumberFrom 1 (get_queue_by_device db d) := by
  unfold normalize_queue_positions waitingRecords
  rw [List.filter_append, filter_not_filter_self, List.nil_append]
  rw [List.filter_eq_self]
  intro x hx
  obtain ⟨z, hz, -, hdev, hst⟩ := mem_renumberFrom hx
  have hzw := (mem_get_queue_by_device hz).2
  unfold isWaitingOf at hzw ⊢
  rw [hdev, hst]
  exact hzw

theorem waitingPositions_normalize (db : QueueDb) (d : Nat) :
    waitingPositions (normalize_queue_positions db d) d =
      List.range' 1 (get_queue_by_device db d).length := by
  unfold waitingPositions
  rw [waitingRecords_normalize, renumberFrom_map_position]

theorem length_waiting_after_complete (db : QueueDb) (d : Nat) (r1 : QueueRecord)
    (rest : List QueueRecord) (hqueue : get_queue_by_device db d = r1 :: rest)
    (hnodup : (db.records.map (·.id)).Nodup) (c : QueueRecord)
    (hcst : c.status = TaskStatus.completed) :
    ((db.records.map (fun r => if r.id == r1.id then c else r)).filter
      (isWaitingOf d)).length = rest.length := by
  rw [List.filter_map, List.length_map]
  have hpt : ∀ r ∈ db.records,
      (isWaitingOf d ∘ (fun r => if r.id == r1.id then c else r)) r =
        (!(r.id == r1.id) && isWaitingOf d r) := by
    intro r _
    by_cases hr : (r.id == r1.id) = true
    · simp [Function.comp, hr, isWaitingOf, hcst]
    · simp [Function.comp, hr]
  rw [List.filter_congr hpt, ← List.filter_filter]
  have h0 : sortQueue (db.records.filter (isWaitingOf d)) = r1 :: rest := hqueue
  have hperm : (db.records.filter (isWaitingOf d)).Perm (r1 :: rest) := by
    have hp := (sortQueue_perm (db.records.filter (isWaitingOf d))).symm
    rw [h0] at hp
    exact hp
  have hperm2 := hperm.filter (fun r => !(r.id == r1.id))
  rw [hperm2.length_eq, List.filter_cons]
  simp only [beq_self_eq_true, Bool.not_true, Bool.false_eq_true, if_false]
  have hnodup' : ((db.records.filter (isWaitingOf d)).map (·.id)).Nodup :=
    ((List.filter_sublist db.records).map (·.id)).nodup hnodup
  have hnodup2 : ((r1 :: rest).map (·.id)).Nodup :=
    (hperm.map (·.id)).nodup hnodup'
  have hids : ∀ x ∈ rest, (!(x.id == r1.id)) = true := by
    intro x hx
    simp only [List.map_cons, List.nodup_cons] at hnodup2
    have hne : x.id ≠ r1.id := by
      intro he
      exact hnodup2.1 (he ▸ List.mem_map_of_mem (·.id) hx)
    simp [hne]
  rw [List.filter_eq_self.mpr hids]

/-- C5: a status report whose `task_progress` arrives at exactly 100 from a stored
value that is not 100 appends exactly one history row (status, task metadata, elapsed
duration, metrics), completes the device's position-1 WAITING record via
`complete_first_in_queue` (stamping `completed_at` and renumbering the remainder from
1), and returns the post-mutation WAITING count; any other report appends no history
row and completes no queue record. -/
theorem report_completion_side_effect (device : Device) (db : QueueDb)
    (history : List DeviceStatusHistoryRow) (report : StatusReport) (now : Nat)
    (hnodup : (db.records.map (·.id)).Nodup) :
    ((report.task_progress = some 100 ∧ device.task_progress ≠ some 100) →
      (∃ dur, (report_device_status device db history report now).history =
        history ++ [⟨device.id, report.status, report.task_id, report.task_name,
          report.task_progress, dur, report.metrics⟩]) ∧
      (∀ r1 rest, get_queue_by_device db device.id = r1 :: rest →
        (∃ r ∈ (report_device_status device db history report now).db.records,
          r.id = r1.id ∧ r.status = TaskStatus.completed ∧
            r.completed_at = some now) ∧
        waitingPositions (report_device_status device db history report now).db
            device.id = List.range' 1 rest.length ∧
        (report_device_status device db history report now).queue_count =
          rest.length) ∧
      (report_device_status device db history report now).queue_count =
        get_queue_count (report_device_status device db history report now).db
          device.id) ∧
    (¬(report.task_progress = some 100 ∧ device.task_progress ≠ some 100) →
      (report_device_status device db history report now).history = history ∧
      (report_device_status device db history report now).db = db) := by
  constructor
  · intro htr
    refine ⟨?_, ?_, ?_⟩
    · have hh : (report_device_status device db history report now).history =
          history ++ [⟨device.id, report.status, report.task_id, report.task_name,
            report.task_progress,
            (match (update_device_status (update_device_heartbeat device now)
                report.status report.task_id report.task_name report.task_progress
                report.metrics none now).task_elapsed_seconds with
              | some e => e
              | none => 0),
            report.metrics⟩] := by
        simp only [report_device_status]
        rw [if_pos htr]
        simp [create_status_history]
      exact ⟨_, hh⟩
    · intro r1 rest hqueue
      have hr1q : r1 ∈ get_queue_by_device db device.id := by
        rw [hqueue]
        exact List.mem_cons_self _ _
      have hr1mem : r1 ∈ db.records := (mem_get_queue_by_device hr1q).1
      have hcf : complete_first_in_queue db device.id now =
          (normalize_queue_positions
            { db with records := db.records.map (fun r => if r.id == r1.id then
                completedCopy r1 now else r) } device.id,
           some (completedCopy r1 now)) := by
        unfold complete_first_in_queue
        rw [hqueue]
      refine ⟨?_, ?_, ?_⟩
      · refine ⟨completedCopy r1 now, ?_, rfl, rfl, rfl⟩
        simp only [report_device_status]
        rw [if_pos htr]
        show _ ∈ (complete_first_in_queue db device.id now).1.records
        rw [hcf]
        simp only [normalize_queue_positions, List.mem_append]
        refine Or.inl (List.mem_filter.mpr ⟨?_, ?_⟩)
        · exact List.mem_map.mpr ⟨r1, hr1mem, by simp⟩
        · simp [isWaitingOf, completedCopy]
      · show waitingPositions (report_device_status device db history report
            now).db device.id = List.range' 1 rest.length
        simp only [report_device_status]
        rw [if_pos htr]
        show waitingPositions (complete_first_in_queue db device.id now).1
          device.id = List.range' 1 rest.length
        rw [hcf, waitingPositions_normalize]
        unfold get_queue_by_device
        rw [length_sortQueue]
        exact congrArg (List.range' 1)
          (length_waiting_after_complete db device.id r1 rest hqueue hnodup _ rfl)
      · show (report_device_status device db history report now).queue_count =
          rest.length
        simp only [report_device_status]
        rw [if_pos htr]
        show get_queue_count (complete_first_in_queue db device.id now).1
          device.id = rest.length
        rw [hcf]
        show (waitingRecords (normalize_queue_positions _ device.id)
          device.id).length = rest.length
        rw [waitingRecords_normalize, renumberFrom_length]
        unfold get_queue_by_device
        rw [length_sortQueue]
        exact length_waiting_after_complete db device.id r1 rest hqueue hnodup _ rfl
    · simp only [report_device_status]
      rw [if_pos htr]
  · intro htr
    constructor
    · simp only [report_device_status]
      rw [if_neg htr]
    · simp only [report_device_status]
      rw [if_neg htr]

/-- Witness for C5: the spec scenario — previous progress 60, report at 100, two
waiters; one history row, position-1 completed, `queue_count = 1`. -/
theorem report_completion_side_effect_witness :
    (dbTwo.records.map (·.id)).Nodup ∧
    (((completionReport.task_progress = some 100 ∧
        devArmed.task_progress ≠ some 100) →
      (∃ dur, (report_device_status devArmed dbTwo [] completionReport 50).history =
        [] ++ [⟨devArmed.id, completionReport.status, completionReport.task_id,
          completionReport.task_name, completionReport.task_progress, dur,
          completionReport.metrics⟩]) ∧
      (∀ r1 rest, get_queue_by_device dbTwo devArmed.id = r1 :: rest →
        (∃ r ∈ (report_device_status devArmed dbTwo [] completionReport
            50).db.records,
          r.id = r1.id ∧ r.status = TaskStatus.completed ∧
            r.completed_at = some 50) ∧
        waitingPositions (report_device_status devArmed dbTwo [] completionReport
            50).db devArmed.id = List.range' 1 rest.length ∧
        (report_device_status devArmed dbTwo [] completionReport 50).queue_count =
          rest.length) ∧
      (report_device_status devArmed dbTwo [] completionReport 50).queue_count =
        get_queue_count (report_device_status devArmed dbTwo [] completionReport
          50).db devArmed.id) ∧
    (¬(completionReport.task_progress = some 100 ∧
        devArmed.task_progress ≠ some 100) →
      (report_device_status devArmed dbTwo [] completionReport 50).history = [] ∧
      (report_device_status devArmed dbTwo [] completionReport 50).db = dbTwo)) :=
  ⟨by decide, report_completion_side_effect devArmed dbTwo [] completionReport 50
    (by decide)⟩

theorem update_device_status_metrics (device : Device) (status : DeviceStatus)
    (task_id task_name : Option String) (task_progress : Option Nat)
    (metrics : Option Metrics) (client_base_url : Option String) (now : Nat) :
    (update_device_status device status task_id task_name task_progress metrics
      client_base_url now).metrics = filter_output_paths_in_metrics metrics := by
  unfold update_device_status
  dsimp only
  split
  · rfl
  · simp only [apply_ite (fun d : Device => d.metrics), ite_self]

/-- C8 counterexample: a status report whose metrics carry a temporary Olympus scratch
path is broadcast to viewers verbatim — the `device_status_update` event contains the
raw, unfiltered metrics (here with `output_path` a path the temp heuristic flags),
even though the persisted metrics are filtered. -/
theorem metrics_broadcast_counterexample :
    is_temp_output_path tempPath = true ∧
    tempReport.metrics = some tempMetrics ∧
    tempMetrics.olympus = some ⟨some tempPath, []⟩ ∧
    (report_device_status devArmed dbTwo [] tempReport 50).events =
      [Event.device_status_update 1 "1号" DeviceStatus.busy (some "t1")
        (some "布样1") (some 50) (some tempMetrics) 2] ∧
    (report_device_status devArmed dbTwo [] tempReport 50).device.metrics =
      filter_output_paths_in_metrics (some tempMetrics) ∧
    filter_output_paths_in_metrics (some tempMetrics) =
      some (Metrics.mk (some "laser_confocal")
        (some (OlympusMetrics.mk none []))) := by
  decide

/-- C8 as amended: the *persisted* metrics are sanitized — after
`filter_output_paths_in_metrics`, `olympus.output_path` is empty or not a known
temporary location and every remaining `output_path_candidates` entry is a non-empty
non-temporary path, and the device row stores exactly these filtered metrics — but the
`device_status_update` broadcast sends the reporter's raw metrics, so a temporary path
can still appear in the live broadcast snapshot (viewers fetching persisted state see
only filtered metrics). -/
theorem metrics_sanitization_amended (metrics : Option Metrics) (device : Device)
    (db : QueueDb) (history : List DeviceStatusHistoryRow) (report : StatusReport)
    (now : Nat) :
    (∀ m oly, filter_output_paths_in_metrics metrics = some m →
      m.olympus = some oly →
      (∀ p, oly.output_path = some p → p = "" ∨ is_temp_output_path p = false) ∧
      (∀ p ∈ oly.output_path_candidates, p ≠ "" ∧ is_temp_output_path p = false)) ∧
    (report_device_status device db history report now).device.metrics =
      filter_output_paths_in_metrics report.metrics ∧
    device_status_update_event
        (report_device_status device db history report now).device report
        (report_device_status device db history report now).queue_count ∈
      (report_device_status device db history report now).events := by
  refine ⟨?_, ?_, ?_⟩
  · intro m oly hm holy
    unfold filter_output_paths_in_metrics at hm
    cases hmet : metrics with
    | none =>
      rw [hmet] at hm
      cases hm
    | some m₀ =>
      rw [hmet] at hm
      dsimp only at hm
      cases holy0 : m₀.olympus with
      | none =>
        rw [holy0] at hm
        dsimp only at hm
        injection hm with h
        subst h
        rw [holy0] at holy
        cases holy
      | some oly₀ =>
        rw [holy0] at hm
        dsimp only at hm
        injection hm with h
        subst h
        dsimp only at holy
        injection holy with h2
        subst h2
        constructor
        · intro p hp
          cases hop : oly₀.output_path with
          | none =>
            rw [hop] at hp
            cases hp
          | some q =>
            rw [hop] at hp
            dsimp only at hp
            by_cases hq : q ≠ "" ∧ is_temp_output_path q = true
            · rw [if_pos hq] at hp
              cases hp
            · rw [if_neg hq] at hp
              injection hp with h3
              rw [← h3]
              push_neg at hq
              by_cases hqe : q = ""
              · exact Or.inl hqe
              · exact Or.inr (by simpa using hq hqe)
        · intro p hp
          dsimp only at hp
          have := List.mem_filter.mp hp
          obtain ⟨-, hcond⟩ := this
          simp only [Bool.and_eq_true, Bool.not_eq_true'] at hcond
          constructor
          · intro he
            rw [he] at hcond
            simp at hcond
          · exact hcond.2
  · simp only [report_device_status]
    split <;> exact update_device_status_metrics ..
  · simp only [report_device_status]
    split
    · simp [device_status_update_event]
    · simp [device_status_update_event]

theorem foldr_max_perm {l l' : List Nat} (h : l.Perm l') (a : Nat) :
    l.foldr max a = l'.foldr max a := by
  induction h with
  | nil => rfl
  | cons x h ih => simp only [List.foldr_cons, ih]
  | swap x y l =>
    simp only [List.foldr_cons]
    rw [Nat.max_left_comm]
  | trans h1 h2 ih1 ih2 => rw [ih1, ih2]

theorem foldr_max_range' :
    ∀ (n k : Nat), (List.range' k n).foldr max 0 = if n = 0 then 0 else k + n - 1 := by
  intro n
  induction n with
  | zero => intro k; rfl
  | succ m ih =>
    intro k
    rw [List.range'_succ]
    simp only [List.foldr_cons, ih (k + 1)]
    by_cases hm : m = 0
    · subst hm
      simp
    · rw [if_neg hm, if_neg (by omega : ¬ m + 1 = 0)]
      omega

theorem maxWaitingPosition_of_dense (db : QueueDb) (d : Nat)
    (h : (waitingPositions db d).Perm
      (List.range' 1 (waitingPositions db d).length)) :
    maxWaitingPosition db d = (waitingPositions db d).length := by
  unfold maxWaitingPosition
  have h0 : (db.records.filter (isWaitingOf d)).foldr
      (fun r m => max r.position m) 0 =
      (waitingPositions db d).foldr max 0 := by
    unfold waitingPositions waitingRecords
    rw [List.foldr_map]
  rw [h0, foldr_max_perm h, foldr_max_range']
  by_cases hl : (waitingPositions db d).length = 0
  · rw [if_pos hl, hl]
  · rw [if_neg hl]
    omega

theorem dense_normalize (db : QueueDb) (d : Nat) :
    (waitingPositions (normalize_queue_positions db d) d).Perm
      (List.range' 1 (waitingPositions (normalize_queue_positions db d) d).length) := by
  rw [waitingPositions_normalize]
  simp

theorem waitingRecords_normalize_other (db : QueueDb) {d d' : Nat} (hne : d' ≠ d) :
    waitingRecords (normalize_queue_positions db d) d' = waitingRecords db d' := by
  unfold normalize_queue_positions waitingRecords
  rw [List.filter_append]
  have h1 : (db.records.filter (fun r => !isWaitingOf d r)).filter
      (isWaitingOf d') = db.records.filter (isWaitingOf d') := by
    rw [List.filter_filter]
    apply List.filter_congr
    intro r _
    cases hw : isWaitingOf d' r with
    | false => simp
    | true =>
      have hdev : r.device_id = d' := by
        unfold isWaitingOf at hw
        exact (of_decide_eq_true hw).1
      have hfalse : isWaitingOf d r = false := by
        unfold isWaitingOf
        simp [hdev]
        intro he
        exact (hne he).elim
      simp [hfalse]
  have h2 : (renumberFrom 1 (get_queue_by_device db d)).filter
      (isWaitingOf d') = [] := by
    rw [List.filter_eq_nil_iff]
    intro x hx
    obtain ⟨z, hz, -, hdev, hst⟩ := mem_renumberFrom hx
    have hzw := (mem_get_queue_by_device hz).2
    unfold isWaitingOf at hzw ⊢
    obtain ⟨hzd, -⟩ := of_decide_eq_true hzw
    simp [hdev, hzd]
    intro he
    exact (hne he.symm).elim
  rw [h1, h2, List.append_nil]

theorem ids_bound_of_perm {l l' : List QueueRecord} {n : Nat}
    (hperm : (l'.map (·.id)).Perm (l.map (·.id))) (h : ∀ r ∈ l, r.id < n) :
    ∀ r ∈ l', r.id < n := by
  intro r hr
  have h1 : r.id ∈ l'.map (·.id) := List.mem_map_of_mem _ hr
  have h2 : r.id ∈ l.map (·.id) := hperm.mem_iff.mp h1
  obtain ⟨r', hr', he⟩ := List.mem_map.mp h2
  exact he ▸ h r' hr'

theorem perm_cons_eraseIdx {l : List QueueRecord} {i : Nat} (h : i < l.length) :
    l.Perm (l.get ⟨i, h⟩ :: l.eraseIdx i) := by
  have h1 : l = l.take i ++ l.get ⟨i, h⟩ :: l.drop (i + 1) := by
    conv_lhs => rw [← List.take_append_drop i l]
    congr 1
    rw [List.get_eq_getElem]
    exact (List.getElem_cons_drop _ _ _).symm
  have h2 : l.eraseIdx i = l.take i ++ l.drop (i + 1) :=
    List.eraseIdx_eq_take_drop_succ l i
  rw [h2]
  conv_lhs => rw [h1]
  exact List.perm_middle

theorem normalize_ids_perm (db : QueueDb) (d : Nat) :
    ((normalize_queue_positions db d).records.map (·.id)).Perm
      (db.records.map (·.id)) := by
  unfold normalize_queue_positions
  show ((db.records.filter (fun r => !isWaitingOf d r) ++
      renumberFrom 1 (get_queue_by_device db d)).map (·.id)).Perm _
  rw [List.map_append, renumberFrom_map_id]
  refine List.Perm.trans
    (List.Perm.append_left _ ((sortQueue_perm _).map (·.id))) ?_
  rw [← List.map_append]
  exact (List.perm_append_comm.trans
    (List.filter_append_perm (isWaitingOf d) db.records)).map (·.id)

theorem filter_other_of_filter_not {d d' : Nat} (hne : d' ≠ d)
    (l : List QueueRecord) :
    (l.filter (fun r => !isWaitingOf d r)).filter (isWaitingOf d') =
      l.filter (isWaitingOf d') := by
  rw [List.filter_filter]
  apply List.filter_congr
  intro r _
  cases hw : isWaitingOf d' r with
  | false => simp
  | true =>
    have hdev : r.device_id = d' := by
      unfold isWaitingOf at hw
      exact (of_decide_eq_true hw).1
    have hfalse : isWaitingOf d r = false := by
      unfold isWaitingOf
      simp [hdev]
      intro he
      exact (hne he).elim
    simp [hfalse]

theorem filter_other_nil_of_all_waiting {d d' : Nat} (hne : d' ≠ d)
    {l : List QueueRecord} (hall : ∀ x ∈ l, isWaitingOf d x = true) :
    l.filter (isWaitingOf d') = [] := by
  rw [List.filter_eq_nil_iff]
  intro x hx
  have hxw := hall x hx
  unfold isWaitingOf at hxw ⊢
  obtain ⟨hd, -⟩ := of_decide_eq_true hxw
  simp [hd]
  intro he
  exact (hne he.symm).elim

theorem mem_move_waiting (db : QueueDb) (d : Nat) (queue : QueueRecord)
    (ci target : Nat) (hw : isWaitingOf d queue = true)
    (htarget : target ≤ ((get_queue_by_device db d).eraseIdx ci).length) :
    ∀ x ∈ (renumberFrom 1 (((get_queue_by_device db d).eraseIdx ci).insertIdx
        target queue)).map
        (fun r => if r.id == queue.id then { r with version := r.version + 1 }
          else r),
      isWaitingOf d x = true := by
  intro x hx
  obtain ⟨y, hy, rfl⟩ := List.mem_map.mp hx
  obtain ⟨z, hz, -, hdev, hst⟩ := mem_renumberFrom hy
  have hzw : isWaitingOf d z = true := by
    rcases (List.mem_insertIdx htarget).mp hz with rfl | hz'
    · exact hw
    · exact (mem_get_queue_by_device (List.mem_of_mem_eraseIdx hz')).2
  have hyw : isWaitingOf d y = true := by
    unfold isWaitingOf at hzw ⊢
    rw [hdev, hst]
    exact hzw
  rw [isWaitingOf_bump]
  exact hyw

theorem move_ids_perm (db : QueueDb) (d : Nat) (queue : QueueRecord)
    (ci target : Nat) (hci : ci < (get_queue_by_device db d).length)
    (htarget : target ≤ ((get_queue_by_device db d).eraseIdx ci).length)
    (helem : (get_queue_by_device db d).get ⟨ci, hci⟩ = queue) :
    ((db.records.filter (fun r => !isWaitingOf d r) ++
      (renumberFrom 1 (((get_queue_by_device db d).eraseIdx ci).insertIdx target
        queue)).map (fun r => if r.id == queue.id then
          { r with version := r.version + 1 } else r)).map (·.id)).Perm
      (db.records.map (·.id)) := by
  rw [List.map_append]
  have hbump : ((renumberFrom 1 (((get_queue_by_device db d).eraseIdx ci).insertIdx
      target queue)).map (fun r => if r.id == queue.id then
        { r with version := r.version + 1 } else r)).map (·.id) =
      (((get_queue_by_device db d).eraseIdx ci).insertIdx target queue).map
        (·.id) := by
    rw [List.map_map]
    have hc : ((fun r : QueueRecord => r.id) ∘ (fun r : QueueRecord =>
        if r.id == queue.id then { r with version := r.version + 1 } else r)) =
        (fun r : QueueRecord => r.id) := by
      funext r
      exact id_bump queue.id r
    rw [hc, renumberFrom_map_id]
  rw [hbump]
  have hins := (List.perm_insertIdx queue
    ((get_queue_by_device db d).eraseIdx ci) htarget).map (fun r : QueueRecord => r.id)
  have hql := perm_cons_eraseIdx hci
  rw [helem] at hql
  refine List.Perm.trans (List.Perm.append_left _ hins) ?_
  refine List.Perm.trans
    (List.Perm.append_left _ ((hql.map (fun r : QueueRecord => r.id)).symm)) ?_
  refine List.Perm.trans
    (List.Perm.append_left _ ((sortQueue_perm _).map (fun r : QueueRecord => r.id))) ?_
  rw [← List.map_append]
  exact (List.perm_append_comm.trans
    (List.filter_append_perm (isWaitingOf d) db.records)).map (·.id)

/-- Successful `update_queue_position` calls either leave the database unchanged (the
empty-queue, clamped-no-op and same-index paths) or produce exactly the
pop/insert/renumber/bump table with one appended log row. -/
theorem update_queue_position_ok_shape (db : QueueDb) (queue_id : Nat)
    (change : PositionChange) (db₂ : QueueDb) (rec : QueueRecord)
    (h : update_queue_position db queue_id change = ReorderResult.ok db₂ rec) :
    db₂ = db ∨
    ∃ queue ci,
      get_queue_record db queue_id = some queue ∧
      (get_queue_by_device db queue.device_id).findIdx?
        (fun r => r.id == queue.id) = some ci ∧
      db₂ = { db with
        records := db.records.filter (fun r => !isWaitingOf queue.device_id r) ++
          (renumberFrom 1 (((get_queue_by_device db queue.device_id).eraseIdx
            ci).insertIdx
              ((max 1 (min change.new_position
                ((get_queue_by_device db queue.device_id).length : Int))).toNat - 1)
              queue)).map
            (fun r => if r.id == queue.id then { r with version := r.version + 1 }
              else r)
        logs := db.logs ++ [⟨queue_id, some queue.position,
          some (max 1 (min change.new_position
            ((get_queue_by_device db queue.device_id).length : Int))).toNat,
          queue.inspector_name, none, none, none⟩] } := by
  unfold update_queue_position at h
  rcases hfind : get_queue_record db queue_id with _ | queue
  · rw [hfind] at h
    simp at h
  · rw [hfind] at h
    dsimp only at h
    by_cases hver : queue.version ≠ change.version
    · rw [if_pos hver] at h
      simp at h
    · rw [if_neg hver] at h
      by_cases hemp : (get_queue_by_device db queue.device_id).isEmpty = true
      · rw [if_pos hemp] at h
        injection h with h1 h2
        exact Or.inl h1.symm
      · rw [if_neg hemp] at h
        by_cases hpos : (max 1 (min change.new_position
            ((get_queue_by_device db queue.device_id).length : Int))).toNat =
            queue.position
        · rw [if_pos hpos] at h
          injection h with h1 h2
          exact Or.inl h1.symm
        · rw [if_neg hpos] at h
          rcases hidx : (get_queue_by_device db queue.device_id).findIdx?
              (fun r => r.id == queue.id) with _ | ci
          · rw [hidx] at h
            simp at h
          · rw [hidx] at h
            dsimp only at h
            by_cases hci : ci = (max 1 (min change.new_position
                ((get_queue_by_device db queue.device_id).length : Int))).toNat - 1
            · rw [if_pos hci] at h
              injection h with h1 h2
              exact Or.inl h1.symm
            · rw [if_neg hci] at h
              injection h with h1 h2
              exact Or.inr ⟨queue, ci, rfl, hidx, h1.symm⟩

theorem join_queue_records (db : QueueDb) (q : QueueCreate) (now : Nat) :
    (join_queue db q now).1 = { db with
      records := db.records ++ (List.range (if q.copies = 0 then 1 else q.copies)).map
        (fun i =>
          { id := db.next_id + i
            inspector_name := q.inspector_name
            device_id := q.device_id
            position := maxWaitingPosition db q.device_id + 1 + i
            submitted_at := now
            completed_at := none
            status := TaskStatus.waiting
            version := 1
            created_by_id := none : QueueRecord })
      next_id := db.next_id + (if q.copies = 0 then 1 else q.copies) } := rfl

theorem queueInvariant_join (db : QueueDb) (q : QueueCreate) (now : Nat)
    (h : QueueInvariant db) : QueueInvariant (join_queue db q now).1 := by
  obtain ⟨hnodup, hbound, hdense⟩ := h
  rw [join_queue_records]
  set c := if q.copies = 0 then 1 else q.copies with hc
  set mx := maxWaitingPosition db q.device_id with hmx
  set created := (List.range c).map
    (fun i =>
      { id := db.next_id + i
        inspector_name := q.inspector_name
        device_id := q.device_id
        position := mx + 1 + i
        submitted_at := now
        completed_at := none
        status := TaskStatus.waiting
        version := 1
        created_by_id := none : QueueRecord }) with hcreated
  have hids : created.map (·.id) = List.range' db.next_id c := by
    rw [hcreated, List.map_map, List.range'_eq_map_range]
    rfl
  have hposs : created.map (·.position) = List.range' (mx + 1) c := by
    rw [hcreated, List.map_map, List.range'_eq_map_range]
    apply List.map_congr_left
    intro i _
    show mx + 1 + i = mx + 1 + i
    rfl
  have hcmem : ∀ x ∈ created, x.device_id = q.device_id ∧
      x.status = TaskStatus.waiting ∧ db.next_id ≤ x.id ∧ x.id < db.next_id + c := by
    intro x hx
    rw [hcreated] at hx
    obtain ⟨i, hi, rfl⟩ := List.mem_map.mp hx
    have := List.mem_range.mp hi
    refine ⟨rfl, rfl, ?_, ?_⟩
    · show db.next_id ≤ db.next_id + i
      omega
    · show db.next_id + i < db.next_id + c
      omega
  refine ⟨?_, ?_, ?_⟩
  · show ((db.records ++ created).map (·.id)).Nodup
    rw [List.map_append, hids]
    refine List.Nodup.append hnodup (List.nodup_range' _ _) ?_
    rw [List.disjoint_left]
    intro a ha hb
    obtain ⟨r, hr, rfl⟩ := List.mem_map.mp ha
    have h1 := hbound r hr
    have h2 := (List.mem_range'_1.mp hb).1
    omega
  · intro r hr
    show r.id < db.next_id + c
    rcases List.mem_append.mp hr with hr | hr
    · have := hbound r hr
      omega
    · exact (hcmem r hr).2.2.2
  · intro d'
    show (((db.records ++ created).filter (isWaitingOf d')).map (·.position)).Perm
      (List.range' 1
        (((db.records ++ created).filter (isWaitingOf d')).map (·.position)).length)
    rw [List.filter_append]
    by_cases hd : d' = q.device_id
    · subst hd
      have hfc : created.filter (isWaitingOf q.device_id) = created := by
        rw [List.filter_eq_self]
        intro x hx
        obtain ⟨h1, h2, -, -⟩ := hcmem x hx
        unfold isWaitingOf
        simp [h1, h2]
      rw [hfc, List.map_append, hposs]
      have hIH := hdense q.device_id
      have hmxN : mx = (waitingPositions db q.device_id).length :=
        maxWaitingPosition_of_dense db q.device_id hIH
      have hperm1 : ((db.records.filter (isWaitingOf q.device_id)).map
          (·.position) ++ List.range' (mx + 1) c).Perm
          (List.range' 1 (waitingPositions db q.device_id).length ++
            List.range' (mx + 1) c) :=
        List.Perm.append_right _ hIH
      refine hperm1.trans ?_
      have hr : List.range' 1 (waitingPositions db q.device_id).length ++
          List.range' (mx + 1) c =
          List.range' 1 (c + (waitingPositions db q.device_id).length) := by
        rw [hmxN]
        have happ := List.range'_append 1 (waitingPositions db q.device_id).length c 1
        simp only [one_mul] at happ
        rw [Nat.add_comm 1 (waitingPositions db q.device_id).length] at happ
        exact happ
      rw [hr]
      have hlen : ((db.records.filter (isWaitingOf q.device_id)).map (·.position) ++
          List.range' (mx + 1) c).length =
          c + (waitingPositions db q.device_id).length := by
        simp [waitingPositions, waitingRecords]
        omega
      rw [hlen]
    · have hfc : created.filter (isWaitingOf d') = [] := by
        rw [List.filter_eq_nil_iff]
        intro x hx
        obtain ⟨h1, -, -, -⟩ := hcmem x hx
        unfold isWaitingOf
        simp [h1]
        intro he
        exact (hd he.symm).elim
      rw [hfc, List.append_nil]
      exact hdense d'

theorem queueInvariant_normalize (db : QueueDb) (d : Nat)
    (hnodup : (db.records.map (·.id)).Nodup)
    (hbound : ∀ r ∈ db.records, r.id < db.next_id)
    (hother : ∀ d', d' ≠ d → (waitingPositions db d').Perm
      (List.range' 1 (waitingPositions db d').length)) :
    QueueInvariant (normalize_queue_positions db d) := by
  refine ⟨(normalize_ids_perm db d).symm.nodup hnodup,
    ids_bound_of_perm (normalize_ids_perm db d) hbound, ?_⟩
  intro d'
  by_cases hd : d' = d
  · subst hd
    exact dense_normalize db d'
  · have hwp : waitingPositions (normalize_queue_positions db d) d' =
        waitingPositions db d' := by
      unfold waitingPositions
      rw [waitingRecords_normalize_other db hd]
    rw [hwp]
    exact hother d' hd

theorem queueInvariant_complete (db : QueueDb) (d : Nat) (now : Nat)
    (h : QueueInvariant db) :
    QueueInvariant (complete_first_in_queue db d now).1 := by
  obtain ⟨hnodup, hbound, hdense⟩ := h
  rcases hq : get_queue_by_device db d with _ | ⟨r1, rest⟩
  · unfold complete_first_in_queue
    rw [hq]
    exact ⟨hnodup, hbound, hdense⟩
  · have hr1q : r1 ∈ get_queue_by_device db d := by
      rw [hq]
      exact List.mem_cons_self _ _
    obtain ⟨hr1mem, hr1w⟩ := mem_get_queue_by_device hr1q
    have hr1dev : r1.device_id = d := by
      unfold isWaitingOf at hr1w
      exact (of_decide_eq_true hr1w).1
    have hcf : (complete_first_in_queue db d now).1 =
        normalize_queue_positions
          { db with records := db.records.map (fun r => if r.id == r1.id then
              completedCopy r1 now else r) } d := by
      unfold complete_first_in_queue
      rw [hq]
    rw [hcf]
    set f : QueueRecord → QueueRecord := fun r => if r.id == r1.id then
      completedCopy r1 now else r with hf
    have hidpt : ∀ r ∈ db.records, (f r).id = r.id := by
      intro r _
      rw [hf]
      dsimp only
      by_cases hcnd : (r.id == r1.id) = true
      · rw [if_pos hcnd]
        show r1.id = r.id
        exact (beq_iff_eq.mp hcnd).symm
      · rw [if_neg hcnd]
    have hids : (db.records.map f).map (·.id) = db.records.map (·.id) := by
      rw [List.map_map]
      exact List.map_congr_left hidpt
    apply queueInvariant_normalize
    · show ((db.records.map f).map (·.id)).Nodup
      rw [hids]
      exact hnodup
    · intro r hr
      show r.id < db.next_id
      obtain ⟨r', hr', rfl⟩ := List.mem_map.mp hr
      rw [hidpt r' hr']
      exact hbound r' hr'
    · intro d' hd'
      have hfilter : (db.records.map f).filter (isWaitingOf d') =
          db.records.filter (isWaitingOf d') := by
        rw [List.filter_map]
        have hpt : ∀ r ∈ db.records, (isWaitingOf d' ∘ f) r = isWaitingOf d' r := by
          intro r hrmem
          show isWaitingOf d' (f r) = isWaitingOf d' r
          rw [hf]
          dsimp only
          by_cases hcnd : (r.id == r1.id) = true
          · rw [if_pos hcnd]
            have hr_eq : r = r1 := by
              refine List.inj_on_of_nodup_map hnodup hrmem hr1mem ?_
              exact beq_iff_eq.mp hcnd
            subst hr_eq
            have hleft : isWaitingOf d' (completedCopy r now) = false := by
              unfold isWaitingOf completedCopy
              simp
            have hright : isWaitingOf d' r = false := by
              unfold isWaitingOf
              simp [hr1dev]
              intro he
              exact (hd' he.symm).elim
            rw [hleft, hright]
          · rw [if_neg hcnd]
        rw [List.filter_congr hpt]
        have hid2 : ∀ r ∈ db.records.filter (isWaitingOf d'), f r = r := by
          intro r hrmem
          have hrf := List.of_mem_filter hrmem
          rw [hf]
          dsimp only
          by_cases hcnd : (r.id == r1.id) = true
          · have hr_eq : r = r1 :=
              List.inj_on_of_nodup_map hnodup (List.mem_of_mem_filter hrmem) hr1mem
                (beq_iff_eq.mp hcnd)
            subst hr_eq
            have hrw : isWaitingOf d' r = false := by
              unfold isWaitingOf
              simp [hr1dev]
              intro he
              exact (hd' he.symm).elim
            rw [hrw] at hrf
            cases hrf
          · rw [if_neg hcnd]
        exact (List.map_congr_left hid2).trans (List.map_id _)
      have hwp : waitingPositions { db with records := db.records.map f } d' =
          waitingPositions db d' := by
        show ((db.records.map f).filter (isWaitingOf d')).map (·.position) =
          (db.records.filter (isWaitingOf d')).map (·.position)
        rw [hfilter]
      rw [hwp]
      exact hdense d'

theorem queueInvariant_leave (db : QueueDb) (queue_id : Nat)
    (h : QueueInvariant db) : QueueInvariant (delete_queue db queue_id).1 := by
  obtain ⟨hnodup, hbound, hdense⟩ := h
  rcases hfind : get_queue_record db queue_id with _ | queue
  · unfold delete_queue
    rw [hfind]
    exact ⟨hnodup, hbound, hdense⟩
  · have hfind' : db.records.find? (fun r => r.id == queue_id) = some queue := hfind
    have hqmem : queue ∈ db.records := List.mem_of_find?_eq_some hfind'
    have hqid0 := List.find?_some hfind'
    have hqid : (queue.id == queue_id) = true := hqid0
    have hdel : (delete_queue db queue_id).1 =
        normalize_queue_positions
          { db with
            records := db.records.eraseP (fun r => r.id == queue_id)
            logs := db.logs.filter (fun l => !(l.queue_id == queue_id)) }
          queue.device_id := by
      unfold delete_queue
      rw [hfind]
    rw [hdel]
    have hsub : (db.records.eraseP (fun r => r.id == queue_id)).Sublist db.records :=
      List.eraseP_sublist _
    apply queueInvariant_normalize
    · exact (hsub.map (·.id)).nodup hnodup
    · intro r hr
      exact hbound r (hsub.mem hr)
    · intro d' hd'
      obtain ⟨a, l₁, l₂, hl₁, hpa, hsplit, herase⟩ :=
        @List.exists_of_eraseP QueueRecord (fun r => r.id == queue_id) db.records
          queue hqmem hqid0
      have ha_eq : a = queue := by
        refine List.inj_on_of_nodup_map hnodup ?_ hqmem ?_
        · rw [hsplit]
          exact List.mem_append_right _ (List.mem_cons_self _ _)
        · have h1 := beq_iff_eq.mp hpa
          have h2 := beq_iff_eq.mp hqid
          rw [h1, h2]
      have hfilter : (db.records.eraseP (fun r => r.id == queue_id)).filter
          (isWaitingOf d') = db.records.filter (isWaitingOf d') := by
        rw [herase, hsplit, List.filter_append, List.filter_append,
          List.filter_cons]
        have haw : isWaitingOf d' a = false := by
          rw [ha_eq]
          unfold isWaitingOf
          simp
          intro he
          exact (hd' he.symm).elim
        rw [haw]
        simp
      have hwp : waitingPositions
          { db with
            records := db.records.eraseP (fun r => r.id == queue_id)
            logs := db.logs.filter (fun l => !(l.queue_id == queue_id)) } d' =
          waitingPositions db d' := by
        show ((db.records.eraseP (fun r => r.id == queue_id)).filter
          (isWaitingOf d')).map (·.position) =
          (db.records.filter (isWaitingOf d')).map (·.position)
        rw [hfilter]
      rw [hwp]
      exact hdense d'

theorem findIdx?_get_prop {l : List QueueRecord} {p : QueueRecord → Bool} {i : Nat}
    (h : l.findIdx? p = some i) (hi : i < l.length) : p (l.get ⟨i, hi⟩) = true := by
  obtain ⟨hlt, hfi⟩ := List.findIdx?_eq_some_iff_findIdx_eq.mp h
  subst hfi
  rw [List.get_eq_getElem]
  exact List.findIdx_getElem

theorem queueInvariant_reorder (db : QueueDb) (queue_id : Nat)
    (change : PositionChange) (h : QueueInvariant db) :
    QueueInvariant (applyQueueOp db (QueueOp.reorder queue_id change)) := by
  obtain ⟨hnodup, hbound, hdense⟩ := h
  show QueueInvariant (match update_queue_position db queue_id change with
    | ReorderResult.ok db' _ => db'
    | _ => db)
  rcases hres : update_queue_position db queue_id change with _ | _ | _ | ⟨db₂, rec⟩
  · exact ⟨hnodup, hbound, hdense⟩
  · exact ⟨hnodup, hbound, hdense⟩
  · exact ⟨hnodup, hbound, hdense⟩
  · show QueueInvariant db₂
    rcases update_queue_position_ok_shape db queue_id change db₂ rec hres with
      rfl | ⟨queue, ci, hfind, hidx, rfl⟩
    · exact ⟨hnodup, hbound, hdense⟩
    · have hcilt : ci < (get_queue_by_device db queue.device_id).length :=
        (List.findIdx?_eq_some_iff_findIdx_eq.mp hidx).1
      have hpe := findIdx?_get_prop hidx hcilt
      have helem_mem : (get_queue_by_device db queue.device_id).get ⟨ci, hcilt⟩ ∈
          get_queue_by_device db queue.device_id := List.get_mem _ _ hcilt
      obtain ⟨hemem, hew⟩ := mem_get_queue_by_device helem_mem
      have hqmem : queue ∈ db.records := List.mem_of_find?_eq_some
        (show db.records.find? (fun r => r.id == queue_id) = some queue from hfind)
      have helem : (get_queue_by_device db queue.device_id).get ⟨ci, hcilt⟩ =
          queue :=
        List.inj_on_of_nodup_map hnodup hemem hqmem (beq_iff_eq.mp hpe)
      have hw : isWaitingOf queue.device_id queue = true := by
        rw [helem] at hew
        exact hew
      have hlen1 : 1 ≤ (get_queue_by_device db queue.device_id).length := by omega
      have htarget : (max 1 (min change.new_position
          ((get_queue_by_device db queue.device_id).length : Int))).toNat - 1 ≤
          ((get_queue_by_device db queue.device_id).eraseIdx ci).length := by
        rw [List.length_eraseIdx, if_pos hcilt]
        omega
      have hperm := move_ids_perm db queue.device_id queue ci
        ((max 1 (min change.new_position
          ((get_queue_by_device db queue.device_id).length : Int))).toNat - 1)
        hcilt htarget helem
      have hmv := waitingRecords_after_move db queue.device_id queue ci
        ((max 1 (min change.new_position
          ((get_queue_by_device db queue.device_id).length : Int))).toNat - 1)
        hw hcilt htarget
      refine ⟨hperm.symm.nodup hnodup, ?_, ?_⟩
      · intro r hr
        exact ids_bound_of_perm hperm hbound r hr
      · intro d''
        by_cases hd : d'' = queue.device_id
        · subst hd
          have hwp : waitingPositions { db with
              records := db.records.filter
                (fun r => !isWaitingOf queue.device_id r) ++
                (renumberFrom 1 (((get_queue_by_device db
                  queue.device_id).eraseIdx ci).insertIdx
                    ((max 1 (min change.new_position
                      ((get_queue_by_device db queue.device_id).length :
                        Int))).toNat - 1)
                    queue)).map
                  (fun r => if r.id == queue.id then
                    { r with version := r.version + 1 } else r)
              logs := db.logs ++ [⟨queue_id, some queue.position,
                some (max 1 (min change.new_position
                  ((get_queue_by_device db queue.device_id).length :
                    Int))).toNat,
                queue.inspector_name, none, none, none⟩] } queue.device_id =
              List.range' 1 (get_queue_by_device db queue.device_id).length := by
            show ((db.records.filter (fun r => !isWaitingOf queue.device_id r) ++
              (renumberFrom 1 (((get_queue_by_device db
                queue.device_id).eraseIdx ci).insertIdx
                  ((max 1 (min change.new_position
                    ((get_queue_by_device db queue.device_id).length :
                      Int))).toNat - 1)
                  queue)).map
                (fun r => if r.id == queue.id then
                  { r with version := r.version + 1 } else r)).filter
                (isWaitingOf queue.device_id)).map (·.position) = _
            rw [hmv.1, hmv.2]
          rw [hwp]
          simp
        · have hwp : waitingPositions { db with
              records := db.records.filter
                (fun r => !isWaitingOf queue.device_id r) ++
                (renumberFrom 1 (((get_queue_by_device db
                  queue.device_id).eraseIdx ci).insertIdx
                    ((max 1 (min change.new_position
                      ((get_queue_by_device db queue.device_id).length :
                        Int))).toNat - 1)
                    queue)).map
                  (fun r => if r.id == queue.id then
                    { r with version := r.version + 1 } else r)
              logs := db.logs ++ [⟨queue_id, some queue.position,
                some (max 1 (min change.new_position
                  ((get_queue_by_device db queue.device_id).length :
                    Int))).toNat,
                queue.inspector_name, none, none, none⟩] } d'' =
              waitingPositions db d'' := by
            show ((db.records.filter (fun r => !isWaitingOf queue.device_id r) ++
              (renumberFrom 1 (((get_queue_by_device db
                queue.device_id).eraseIdx ci).insertIdx
                  ((max 1 (min change.new_position
                    ((get_queue_by_device db queue.device_id).length :
                      Int))).toNat - 1)
                  queue)).map
                (fun r => if r.id == queue.id then
                  { r with version := r.version + 1 } else r)).filter
                (isWaitingOf d'')).map (·.position) =
              (db.records.filter (isWaitingOf d'')).map (·.position)
            rw [List.filter_append, filter_other_of_filter_not hd,
              filter_other_nil_of_all_waiting hd
                (mem_move_waiting db queue.device_id queue ci
                  ((max 1 (min change.new_position
                    ((get_queue_by_device db queue.device_id).length :
                      Int))).toNat - 1) hw htarget),
              List.append_nil]
          rw [hwp]
          exact hdense d''

theorem queueInvariant_apply (db : QueueDb) (op : QueueOp)
    (h : QueueInvariant db) : QueueInvariant (applyQueueOp db op) := by
  cases op with
  | join q now => exact queueInvariant_join db q now h
  | reorder queue_id change => exact queueInvariant_reorder db queue_id change h
  | complete_first device_id now => exact queueInvariant_complete db device_id now h
  | leave queue_id => exact queueInvariant_leave db queue_id h

theorem queueInvariant_empty : QueueInvariant emptyQueueDb := by
  refine ⟨?_, ?_, ?_⟩
  · exact List.nodup_nil
  · intro r hr
    cases hr
  · intro d
    exact List.Perm.refl _

theorem queueInvariant_run (ops : List QueueOp) : QueueInvariant (runQueueOps ops) := by
  unfold runQueueOps
  induction ops using List.reverseRecOn with
  | nil => exact queueInvariant_empty
  | append_singleton ops op ih =>
    rw [List.foldl_append]
    exact queueInvariant_apply _ op ih

/-- C1: after any sequence of join, reorder, complete-first and leave operations from
an empty queue table, each device's WAITING positions are exactly the set
`{1, ..., N}` — a permutation of `1..N`, hence no duplicates and no gaps.  (The
renumbering step embedded in the operations re-sorts the WAITING set by
`(position, submitted_at, id)` and assigns `1..N` in that order.) -/
theorem queue_positions_dense (ops : List QueueOp) (d : Nat) :
    (waitingPositions (runQueueOps ops) d).Perm
      (List.range' 1 (waitingPositions (runQueueOps ops) d).length) :=
  (queueInvariant_run ops).2.2 d

end TextileMonitor
